import Mathlib

/-!
Verification development for the Old World tech-tree generator
(src/generate_tech_tree.py).  The Python source is shallowly embedded:
XML records become Lean structures whose fields hold the text of the
found sub-elements (`Option String`; `none` models a missing element or
a null text, matching the Python truthiness checks that collapse the
two), dictionaries become insertion-ordered association lists, shared
mutable dictionaries (the effect-player unlock objects) become an
explicit store with references, and code paths that can raise become
`Except`.
-/

/-! ## Python string primitives used by the source -/

/-- Occurrence check on character lists; models the Python `in` operator
for strings (the pattern is the first argument). -/
def isInfixB (pat : List Char) : List Char → Bool
  | [] => pat.isEmpty
  | c :: rest => pat.isPrefixOf (c :: rest) || isInfixB pat rest

/-- Python `pat in s` for strings. -/
def strContains (s pat : String) : Bool := isInfixB pat.data s.data

/-- Python `s.upper()` (ASCII, which covers all identifiers in the data). -/
def strUpper (s : String) : String := ⟨s.data.map Char.toUpper⟩

/-- Python `s.lower()` (ASCII). -/
def strLower (s : String) : String := ⟨s.data.map Char.toLower⟩

/-- Python `s.strip()`: drop whitespace from both ends. -/
def pyStrip (s : String) : String :=
  ⟨((s.data.dropWhile Char.isWhitespace).reverse.dropWhile Char.isWhitespace).reverse⟩

/-- Replace every non-overlapping occurrence of `pat` (scanning left to
right) by `repl`, fueled for structural recursion; the fuel is the input
length, which is always sufficient because every step consumes at least
one character.  The source never replaces an empty pattern, and for an
empty pattern this returns the input unchanged. -/
def replaceAux (pat repl : List Char) : Nat → List Char → List Char
  | _, [] => []
  | 0, l => l
  | fuel + 1, c :: cs =>
    if pat ≠ [] ∧ pat.isPrefixOf (c :: cs) then
      repl ++ replaceAux pat repl fuel ((c :: cs).drop pat.length)
    else
      c :: replaceAux pat repl fuel cs

/-- Python `s.replace(pat, repl)` (all occurrences). -/
def pyReplace (s pat repl : String) : String :=
  ⟨replaceAux pat.data repl.data s.data.length s.data⟩

/-- Title-case helper: uppercase the first letter of every run of
letters, lowercase the rest; non-letters are copied and reset the word
boundary.  Models Python `str.title()` on ASCII text. -/
def titleAux : List Char → Bool → List Char
  | [], _ => []
  | c :: cs, prevAlpha =>
    if c.isAlpha then
      (if prevAlpha then c.toLower else c.toUpper) :: titleAux cs true
    else
      c :: titleAux cs false

/-- Python `s.title()` (ASCII). -/
def strTitle (s : String) : String := ⟨titleAux s.data false⟩

/-- Scan to the first occurrence of `stop`, returning the characters
before it and the remainder after it. -/
def takeUntil (stop : Char) : List Char → Option (List Char × List Char)
  | [] => none
  | c :: rest =>
    if c = stop then some ([], rest)
    else (takeUntil stop rest).map (fun p => (c :: p.1, p.2))

/-- Delete every delimited group `openC ... closeC` that has at least one
character between the delimiters, exactly as the non-overlapping
left-to-right regex substitutions in `clean_text` behave; an unmatched
opener, or an empty group, is kept literally.  Fueled by the input
length. -/
def stripDelim (openC closeC : Char) : Nat → List Char → List Char
  | _, [] => []
  | 0, l => l
  | fuel + 1, c :: cs =>
    if c = openC then
      match takeUntil closeC cs with
      | some (inner, rest) =>
        if inner = [] then c :: closeC :: stripDelim openC closeC fuel rest
        else stripDelim openC closeC fuel rest
      | none => c :: stripDelim openC closeC fuel cs
    else c :: stripDelim openC closeC fuel cs

/-- `OldWorldParser.clean_text`: remove angle-bracket markup, then
brace-delimited inline codes, then every tilde, then strip whitespace. -/
def clean_text (s : String) : String :=
  let noAngles := stripDelim '<' '>' s.data.length s.data
  let noBraces := stripDelim '{' '}' noAngles.length noAngles
  pyStrip ⟨noBraces.filter (fun c => c ≠ '~')⟩

/-! ## Python `int()` on strings (ASCII digits, optional sign,
underscore digit grouping, surrounding whitespace) -/

/-- Digit value accumulator. -/
def digitsToNat (l : List Char) : Nat :=
  l.foldl (fun n c => n * 10 + (c.toNat - '0'.toNat)) 0

/-- After a leading digit: digits optionally separated by single
underscores, each underscore followed by a digit.  Returns the bare
digits or `none` when the grouping is malformed. -/
def pyDigitsAux : List Char → Option (List Char)
  | [] => some []
  | '_' :: c :: cs => if c.isDigit then (pyDigitsAux cs).map (c :: ·) else none
  | c :: cs => if c.isDigit then (pyDigitsAux cs).map (c :: ·) else none

/-- Unsigned integer literal: a leading digit then grouped digits. -/
def pyUInt : List Char → Option Nat
  | [] => none
  | c :: cs =>
    if c.isDigit then (pyDigitsAux cs).map (fun ds => digitsToNat (c :: ds))
    else none

/-- Signed integer literal body. -/
def pyIntCore : List Char → Option Int
  | [] => none
  | '+' :: rest => (pyUInt rest).map Int.ofNat
  | '-' :: rest => (pyUInt rest).map (fun n => -(Int.ofNat n))
  | l => (pyUInt l).map Int.ofNat

/-- Python `int(s)`: strip whitespace, optional sign, digits; `none`
models the `ValueError` raised on malformed input. -/
def pyInt (s : String) : Option Int := pyIntCore (pyStrip s).data

/-! ## Insertion-ordered dictionaries as association lists -/

/-- Dictionary lookup. -/
def lookupA {α : Type} : List (String × α) → String → Option α
  | [], _ => none
  | (k, v) :: rest, key => if k = key then some v else lookupA rest key

/-- Dictionary assignment: overwrite in place, else append; keeps the
insertion order of a Python dict. -/
def assocSet {α : Type} : List (String × α) → String → α → List (String × α)
  | [], k, v => [(k, v)]
  | (k', v') :: rest, k, v =>
    if k' = k then (k', v) :: rest else (k', v') :: assocSet rest k v

/-- Append one value to the list stored under a key, creating the entry
when absent; models `dict.setdefault(k, []).append(v)` style updates. -/
def assocAppend : List (String × List String) → String → String → List (String × List String)
  | [], k, v => [(k, [v])]
  | (k', vs) :: rest, k, v =>
    if k' = k then (k', vs ++ [v]) :: rest else (k', vs) :: assocAppend rest k v

/-- Apply a function to the value stored under a key, if present. -/
def assocUpdate {α : Type} (f : α → α) : List (String × α) → String → List (String × α)
  | [], _ => []
  | (k', v) :: rest, k =>
    if k' = k then (k', f v) :: rest else (k', v) :: assocUpdate f rest k

/-- Keep the non-empty texts of a list of found elements; models the
per-element `if x is not None and x.text` truthiness filters. -/
def truthyFilter (l : List (Option String)) : List String :=
  l.filterMap (fun o => match o with
    | some s => if s = "" then none else some s
    | none => none)

/-! ## Data model -/

/-- The per-tech unlock dictionary built by `parse_effect_player` and
used as the default in `parse_tech_node`. -/
structure Unlocks where
  units : List String
  improvements : List String
  laws : List String
  projects : List String
  specialists : List String
  other : List String
deriving DecidableEq, Repr

/-- The fresh unlock dictionary with all-empty categories. -/
def emptyUnlocks : Unlocks := ⟨[], [], [], [], [], []⟩

/-- In the Python source `tech["unlocks"]` is either a fresh dictionary
owned by the tech or a reference to the shared dictionary stored in
`effect_player_data`; writes through a shared reference are visible to
every tech holding it.  The reference is made explicit here. -/
inductive UnlocksRef where
  | own (u : Unlocks)
  | shared (key : String)
deriving DecidableEq, Repr

/-- The store backing `self.effect_player_data`. -/
def EffectStore := List (String × Unlocks)

/-- A parsed tech record, the dictionary returned by `parse_tech_node`. -/
structure Tech where
  id : String
  name : String
  description : String
  cost : Int
  row : Int
  column : Int
  prereqs : List String
  unlocksRef : UnlocksRef
  isBonus : Bool
  bonusDiscover : Option String
  nationValid : List String
deriving DecidableEq, Repr

/-- A bonus tech as assembled by `identify_bonus_techs`; `parent = none`
models the Python value `None` stored under the `parent` key, and
`nation = none` models the `nation` key being absent from the
dictionary. -/
structure BonusTech where
  id : String
  name : String
  cost : Int
  parent : Option String
  bonus : String
  nation : Option String
deriving DecidableEq, Repr

/-- Per-bonus yield data from `parse_bonuses`; the `other` sub-dictionary
is created by the source but never written or read. -/
structure BonusData where
  yields : List (String × Int)
  other : List (String × Int)
deriving DecidableEq, Repr

/-- The `self.bonus_values` dictionary. -/
def BonusValues := List (String × BonusData)

/-- A nation entry stored in `self.nations` (only nations with at least
one starting tech are stored). -/
structure NationInfo where
  id : String
  name : String
  startingTechs : List String
deriving DecidableEq, Repr

/-! ## Name formatting -/

/-- `OldWorldParser.format_name`: strip the category marker from the
front, underscores to spaces, title case; for the project category also
strip one trailing run of whitespace plus digits. -/
def stripTrailingNum (s : String) : String :=
  let r := s.data.reverse
  let ds := r.takeWhile Char.isDigit
  let rest := r.drop ds.length
  let ws := rest.takeWhile Char.isWhitespace
  if ds ≠ [] ∧ ws ≠ [] then ⟨(rest.drop ws.length).reverse⟩ else s

/-- `OldWorldParser.format_name text pfx`. -/
def format_name (text pfx : String) : String :=
  let t := if pfx.data.isPrefixOf text.data then (⟨text.data.drop pfx.data.length⟩ : String) else text
  let result := strTitle (pyReplace t "_" " ")
  if pfx = "PROJECT_" then stripTrailingNum result else result

/-- The fallback display name for a tech id in `parse_tech_node`:
`tech_id.replace("TECH_", "").replace("_", " ").title()`. -/
def tech_display_name (tid : String) : String :=
  strTitle (pyReplace (pyReplace tid "TECH_" "") "_" " ")

/-- The fallback display name for a nation id in `parse_nations`:
`nation_id.replace("NATION_", "").title()` (no underscore replacement). -/
def nation_display_name (nid : String) : String :=
  strTitle (pyReplace nid "NATION_" "")

/-! ## Raw XML records

Each structure lists the texts of the sub-elements the source reads.
An `Option String` field is `none` when the element is missing or its
text is null; the source collapses the two by a truthiness check. -/

/-- One `Entry` of a localization table: `(zTag, zText)`. -/
def TextXml := Option String × Option String

/-- One `Entry` of `effectPlayer.xml`. -/
structure EffectXml where
  zType : Option String
  units : List (Option String)
  improvements : List (Option String)
  laws : List (Option String)
  projects : List (Option String)
  specialists : List (Option String)

/-- One `Pair` of a tech prerequisite bit-matrix: `(zIndex, bValue)`. -/
def PrereqPair := Option String × Option String

/-- One `Entry` of `tech.xml`. -/
structure TechXml where
  zType : Option String
  iCost : Option String
  iRow : Option String
  iColumn : Option String
  abTechPrereq : List PrereqPair
  effectPlayer : Option String
  nameTag : Option String
  adviceTag : Option String
  bHide : Option String
  bTrash : Option String
  bNoFree : Option String
  bonusDiscover : Option String
  aeNationValid : List (Option String)

/-- One `Entry` of `nation.xml`. -/
structure NationXml where
  zType : Option String
  startingTech : List (Option String)
  nameTag : Option String

/-- One `Pair` of `aiGlobalYields`; the outer `Option` is element
presence (which is all `parse_bonuses` checks), the inner one the text,
which the source then uses without a null or numeric guard. -/
def YieldPair := Option (Option String) × Option (Option String)

/-- One `Entry` of `bonus.xml`; `globalYields = none` when the
`aiGlobalYields` element is absent. -/
structure BonusXml where
  zType : Option String
  globalYields : Option (List YieldPair)

/-- One `Entry` of `unit.xml` or `project.xml`: `(zType, TechPrereq)`. -/
def UnitXml := Option String × Option String

/-! ## Parsers -/

/-- `parse_text_infos` / `parse_text_nation` / `parse_text_bonus`: merge
cleaned tag-to-text pairs into the text dictionary; a missing table
leaves it unchanged (a warning is printed and the method returns). -/
def parse_text (tbl : Option (List TextXml)) (td : List (String × String)) :
    List (String × String) :=
  match tbl with
  | none => td
  | some entries =>
    entries.foldl (fun acc p =>
      match p.1, p.2 with
      | some tg, some tx =>
        if tg ≠ "" ∧ tx ≠ "" then assocSet acc tg (clean_text tx) else acc
      | _, _ => acc) td

/-- The unlock dictionary built for one effect-player entry. -/
def mkEffectUnlocks (e : EffectXml) : Unlocks :=
  { units := (truthyFilter e.units).map (fun s => format_name s "UNIT_")
  , improvements := (truthyFilter e.improvements).map (fun s => format_name s "IMPROVEMENT_")
  , laws := (truthyFilter e.laws).map (fun s => format_name s "LAW_")
  , projects := (truthyFilter e.projects).map (fun s => format_name s "PROJECT_")
  , specialists := (truthyFilter e.specialists).map (fun s => format_name s "SPECIALIST_")
  , other := [] }

/-- `parse_effect_player`: build `self.effect_player_data`; entries
without a truthy `zType` are skipped, a missing table yields the empty
store. -/
def parse_effect_player (tbl : Option (List EffectXml)) : EffectStore :=
  match tbl with
  | none => []
  | some es =>
    es.foldl (fun st e =>
      match e.zType with
      | some ty => if ty ≠ "" then assocSet st ty (mkEffectUnlocks e) else st
      | none => st) []

/-- `OldWorldParser.get_int_value` on the text of the found element:
missing element, empty text, or a text `int()` rejects all give the
default. -/
def get_int_value (txt : Option String) (default : Int) : Int :=
  match txt with
  | some s => if s ≠ "" then (pyInt s).getD default else default
  | none => default

/-- `OldWorldParser.get_bool_value` on the effective value (the `value`
attribute if truthy, else the text): true exactly on `"1"`. -/
def get_bool_value (v : Option String) : Bool := v = some "1"

/-- Prerequisite extraction from one bit-matrix pair: keep the id iff
the index text is truthy and the flag text is exactly `"1"`. -/
def prereqF (p : PrereqPair) : Option String :=
  match p.1 with
  | some i => if i ≠ "" ∧ p.2 = some "1" then some i else none
  | none => none

/-- The record built by `parse_tech_node` once the id check passed. -/
def techOfRec (td : List (String × String)) (st : EffectStore) (rec : TechXml)
    (tid : String) : Tech :=
  { id := tid
  , name :=
      match rec.nameTag with
      | some ntag =>
        if ntag ≠ "" then (lookupA td ntag).getD (tech_display_name tid)
        else tech_display_name tid
      | none => tech_display_name tid
  , description :=
      match rec.adviceTag with
      | some atag => if atag ≠ "" then (lookupA td atag).getD "" else ""
      | none => ""
  , cost := get_int_value rec.iCost 0
  , row := get_int_value rec.iRow 0
  , column := get_int_value rec.iColumn 0
  , prereqs := rec.abTechPrereq.filterMap prereqF
  , unlocksRef :=
      match rec.effectPlayer with
      | some ep =>
        if ep ≠ "" ∧ (lookupA st ep).isSome then UnlocksRef.shared ep
        else UnlocksRef.own emptyUnlocks
      | none => UnlocksRef.own emptyUnlocks
  , isBonus := get_bool_value rec.bHide || get_bool_value rec.bTrash || get_bool_value rec.bNoFree
  , bonusDiscover :=
      match rec.bonusDiscover with
      | some b => if b ≠ "" then some b else none
      | none => none
  , nationValid := truthyFilter rec.aeNationValid }

/-- `OldWorldParser.parse_tech_node`: `none` when the record has no
truthy `zType`. -/
def parse_tech_node (td : List (String × String)) (st : EffectStore)
    (rec : TechXml) : Option Tech :=
  match rec.zType with
  | none => none
  | some tid => if tid = "" then none else some (techOfRec td st rec tid)

/-- `OldWorldParser.parse_techs`: a missing `tech.xml` prints an error
message and returns, leaving `self.techs` empty; otherwise every record
that `parse_tech_node` accepts is appended in table order. -/
def parse_techs (td : List (String × String)) (st : EffectStore)
    (tbl : Option (List TechXml)) : List Tech :=
  match tbl with
  | none => []
  | some entries => entries.filterMap (parse_tech_node td st)

/-- `OldWorldParser.parse_nations`: nations with a truthy id keep their
truthy starting techs; only nations with at least one starting tech are
stored. -/
def parse_nations (tbl : Option (List NationXml)) (td : List (String × String)) :
    List (String × NationInfo) :=
  match tbl with
  | none => []
  | some entries =>
    entries.foldl (fun acc n =>
      match n.zType with
      | none => acc
      | some nid =>
        if nid = "" then acc
        else
          let sts := truthyFilter n.startingTech
          let nname :=
            match n.nameTag with
            | some tg =>
              if tg ≠ "" then (lookupA td tg).getD (nation_display_name nid)
              else nation_display_name nid
            | none => nation_display_name nid
          if sts ≠ [] then assocSet acc nid ⟨nid, nname, sts⟩ else acc) []

/-- Yield extraction for one bonus entry, accumulator style so that the
dictionary keeps insertion order and the first malformed pair raises:
the source runs `yield_type.text.replace(...)` and `int(yield_value.text)`
with no guard beyond element presence, so a null text or a non-numeric
value is an uncaught exception. -/
def yieldsAux (acc : List (String × Int)) : List YieldPair → Except String (List (String × Int))
  | [] => .ok acc
  | (yt, yv) :: rest =>
    match yt, yv with
    | some t?, some v? =>
      match t? with
      | none => .error "AttributeError: NoneType has no attribute replace"
      | some ts =>
        match v? with
        | none => .error "TypeError: int() argument is None"
        | some vs =>
          match pyInt vs with
          | none => .error "ValueError: invalid literal for int()"
          | some v => yieldsAux (assocSet acc (strLower (pyReplace ts "YIELD_" "")) v) rest
    | _, _ => yieldsAux acc rest

/-- Build `self.bonus_values` from the entries of `bonus.xml`. -/
def parse_bonuses_aux (acc : List (String × BonusData)) :
    List BonusXml → Except String (List (String × BonusData))
  | [] => .ok acc
  | b :: rest =>
    match b.zType with
    | none => parse_bonuses_aux acc rest
    | some ty =>
      if ty = "" then parse_bonuses_aux acc rest
      else
        match (match b.globalYields with
               | none => Except.ok []
               | some pairs => yieldsAux [] pairs) with
        | .error e => .error e
        | .ok ys => parse_bonuses_aux (assocSet acc ty ⟨ys, []⟩) rest

/-- `OldWorldParser.parse_bonuses`.  When the table is missing, the
method prints a warning and returns before the line
`self.bonus_values = {}`, so the attribute is never created: the result
`none` models the unset attribute, later dereferenced by
`get_bonus_value`. -/
def parse_bonuses (tbl : Option (List BonusXml)) : Except String (Option BonusValues) :=
  match tbl with
  | none => .ok none
  | some entries =>
    match parse_bonuses_aux [] entries with
    | .error e => .error e
    | .ok store => .ok (some store)

/-- `OldWorldParser.get_bonus_value`: reads `self.bonus_values`, which
raises `AttributeError` when `parse_bonuses` never assigned it. -/
def get_bonus_value (bv : Option BonusValues) (tid ytype : String) : Except String Int :=
  match bv with
  | none => .error "AttributeError: OldWorldParser object has no attribute bonus_values"
  | some store =>
    match lookupA store ("BONUS_" ++ tid) with
    | some bd => .ok ((lookupA bd.yields (strLower ytype)).getD 0)
    | none => .ok 0

/-! ## Bonus classification engine (`identify_bonus_techs`) -/

/-- The uppercased tech id the rule chains match on
(`tech_id_upper = tech["id"].upper()`). -/
def tech_id_upper (t : Tech) : String := strUpper t.id

/-- Victory techs and event bonuses excluded from bonus cards. -/
def exclude_from_bonus : List String :=
  ["ECONOMIC_REFORM", "MILITARY_PRESTIGE", "INDUSTRIAL_PROGRESS", "EVENT_"]

/-- The victory markers re-tested by the second branch of the
classification loop. -/
def victory_list : List String :=
  ["ECONOMIC_REFORM", "MILITARY_PRESTIGE", "INDUSTRIAL_PROGRESS"]

/-- `should_exclude = any(exc in tech["id"] for exc in exclude_from_bonus)`. -/
def shouldExclude (t : Tech) : Bool :=
  exclude_from_bonus.any (fun e => strContains t.id e)

/-- `any(vic in tech["id"] for vic in [the three victory markers])`. -/
def isVictory (t : Tech) : Bool :=
  victory_list.any (fun v => strContains t.id v)

/-- The curated luxury-resource name map. -/
def resource_map : List (String × String) :=
  [("Silk", "Silk"), ("Porcelain", "Porcelain"), ("Exotic Fur", "Exotic Furs"),
   ("Perfume", "Perfume"), ("Exotic Leather", "Exotic Leather"), ("Ebony", "Ebony"),
   ("Ivory", "Ivory"), ("Lavender", "Lavender"), ("Spices", "Spices"),
   ("Wine", "Wine"), ("Incense", "Incense"), ("Gems", "Gems"),
   ("Pearl", "Pearls"), ("Olive", "Olives"), ("Dye", "Dye"),
   ("Fur", "Furs"), ("Honey", "Honey"), ("Salt", "Salt")]

/-- The derivation of a luxury-resource display name from the id:
`tech["id"].replace("TECH_RESOURCE_", "").replace("_BONUS", "").replace("_", " ").title()`. -/
def resource_display (tid : String) : String :=
  strTitle (pyReplace (pyReplace (pyReplace tid "TECH_RESOURCE_" "") "_BONUS" "") "_" " ")

/-- The `bonus_text` elif chain of `identify_bonus_techs`, in source
order; the result is `""` exactly when no branch matched (the source
initializes `bonus_text = ""`), and branches that read
`self.bonus_values` propagate its failure. -/
def bonusTextRaw (bv : Option BonusValues) (t : Tech) : Except String String :=
  if strContains (tech_id_upper t) "STONE" && strContains (tech_id_upper t) "STONECUTTING" then
    match get_bonus_value bv t.id "stone" with
    | .error e => .error e
    | .ok v => .ok (if v > 0 then "+" ++ toString v ++ " Stone" else "+200 Stone")
  else if strContains (tech_id_upper t) "WORKER" then .ok "+1 Worker"
  else if strContains (tech_id_upper t) "FOOD" then
    match get_bonus_value bv t.id "food" with
    | .error e => .error e
    | .ok v => .ok (if v > 0 then "+" ++ toString v ++ " Food" else "+200 Food")
  else if strContains (tech_id_upper t) "SETTLER" then .ok "+1 Settler"
  else if strContains (tech_id_upper t) "BORDERS" then .ok "Border Growth"
  else if strContains (tech_id_upper t) "ORDERS" then
    match get_bonus_value bv t.id "orders" with
    | .error e => .error e
    | .ok v => .ok (if v > 0 then "+" ++ toString v ++ " Orders" else "+20 Orders")
  else if strContains (tech_id_upper t) "MONEY" then
    match get_bonus_value bv t.id "money" with
    | .error e => .error e
    | .ok v => .ok (if v > 0 then "+" ++ toString v ++ " Money" else "+200 Money")
  else if strContains (tech_id_upper t) "MINISTER" then .ok "+1 Minister"
  else if strContains (tech_id_upper t) "SCIENTIST" then .ok "Free Scientist"
  else if strContains (tech_id_upper t) "CIVICS" then
    match get_bonus_value bv t.id "civics" with
    | .error e => .error e
    | .ok v => .ok (if v > 0 then "+" ++ toString v ++ " Civics" else "Civic Points")
  else if strContains (tech_id_upper t) "TRAINING" then
    match get_bonus_value bv t.id "training" with
    | .error e => .error e
    | .ok v => .ok (if v > 0 then "+" ++ toString v ++ " Training" else "Unit Training")
  else if strContains (tech_id_upper t) "HAPPINESS" then .ok "Happiness Boost"
  else if strContains (tech_id_upper t) "GOODS" then .ok "Luxury Goods"
  else if strContains (tech_id_upper t) "MERCHANT" then .ok "Free Merchant"
  else if strContains (tech_id_upper t) "SOLDIER" then .ok "Free Court Soldier"
  else if strContains t.id "RESOURCE_" then
    .ok ((lookupA resource_map (resource_display t.id)).getD (resource_display t.id))
  else if strContains (tech_id_upper t) "BIREME" then .ok "+1 Bireme"
  else if strContains (tech_id_upper t) "CHARIOT" &&
      !(["LIGHT", "HITTITE"].any (fun n => strContains (tech_id_upper t) n)) then
    .ok "+1 Chariot"
  else if strContains (tech_id_upper t) "MACEMAN" then .ok "+1 Maceman"
  else if strContains (tech_id_upper t) "ONAGER" then .ok "+1 Onager"
  else if strContains (tech_id_upper t) "ARCHER" &&
      !(["CAMEL", "HORSE", "AKKADIAN", "CIMMERIAN", "MEDJAY", "BEJA", "CATAPHRACT"].any
          (fun s => strContains (tech_id_upper t) s)) then
    .ok "+1 Archer"
  else if strContains (tech_id_upper t) "HORSEMAN" &&
      !(strContains (tech_id_upper t) "HORSE_ARCHER") then
    .ok "+1 Horseman"
  else if strContains (tech_id_upper t) "HORSE_ARCHER" then .ok "+1 Horse Archer"
  else if strContains (tech_id_upper t) "CAMEL_ARCHER" then .ok "+1 Camel Archer"
  else if strContains (tech_id_upper t) "WAR_ELEPHANT" then .ok "+1 War Elephant"
  else if strContains (tech_id_upper t) "BALLISTA" then .ok "+1 Ballista"
  else if strContains (tech_id_upper t) "LONGBOWMAN" then .ok "+2 Longbowman"
  else if strContains (tech_id_upper t) "CROSSBOWMAN" then .ok "+2 Crossbowman"
  else if strContains (tech_id_upper t) "BATTERING_RAM" then .ok "+1 Battering Ram"
  else if strContains (tech_id_upper t) "SIEGE_TOWER" then .ok "+2 Siege Tower"
  else if strContains (tech_id_upper t) "AKKADIAN" then .ok "+1 Akkadian Archer"
  else if strContains (tech_id_upper t) "CIMMERIAN" then .ok "+2 Cimmerian Archer"
  else if strContains (tech_id_upper t) "AFRICAN_ELEPHANT" then .ok "+1 African Elephant"
  else if strContains (tech_id_upper t) "TURRETED_ELEPHANT" then .ok "+2 Turreted Elephant"
  else if strContains (tech_id_upper t) "LIGHT_CHARIOT" then .ok "+1 Light Chariot"
  else if strContains (tech_id_upper t) "MOUNTED_LANCER" then .ok "+2 Mounted Lancer"
  else if strContains (tech_id_upper t) "HOPLITE" then .ok "+1 Hoplite"
  else if strContains (tech_id_upper t) "PHALANGITE" then .ok "+2 Phalangite"
  else if strContains (tech_id_upper t) "HITTITE_CHARIOT" then
    .ok (if strContains (tech_id_upper t) "1" then "+1 Hittite Chariot" else "+2 Hittite Chariot")
  else if strContains (tech_id_upper t) "MEDJAY" then .ok "+1 Medjay"
  else if strContains (tech_id_upper t) "BEJA" then .ok "+2 Beja Archer"
  else if strContains (tech_id_upper t) "PALTON" then .ok "+1 Palton Cavalry"
  else if strContains (tech_id_upper t) "CATAPHRACT" then .ok "+2 Cataphract Archer"
  else if strContains (tech_id_upper t) "HASTATUS" then .ok "+1 Hastatus"
  else if strContains (tech_id_upper t) "LEGIONARY" then .ok "+2 Legionary"
  else if strContains (tech_id_upper t) "DMT" then .ok "+1 Dmt Warrior"
  else if strContains (tech_id_upper t) "SHOTELAI" then .ok "+2 Shotelai"
  else .ok ""

/-- The `bonus_name` elif chain of `identify_bonus_techs`, in source
order; its luxury-resource branch reuses the already-computed (and
already-defaulted) `bonus_text`, and the final else falls back to
`tech.get("name", "Bonus")`, whose default is dead because
`parse_tech_node` always stores a name. -/
def bonusNameChain (t : Tech) (bonus_text : String) : String :=
  if strContains (tech_id_upper t) "STONE" && strContains (tech_id_upper t) "STONECUTTING" then
    "Stone Boost"
  else if strContains (tech_id_upper t) "WORKER" then "Free Worker"
  else if strContains (tech_id_upper t) "FOOD" then "Food Boost"
  else if strContains (tech_id_upper t) "SETTLER" then "Free Settler"
  else if strContains (tech_id_upper t) "BORDERS" then "Border Boost"
  else if strContains (tech_id_upper t) "ORDERS" then "Orders Boost"
  else if strContains (tech_id_upper t) "MONEY" then "Money Boost"
  else if strContains (tech_id_upper t) "MINISTER" then "Free Minister"
  else if strContains (tech_id_upper t) "SCIENTIST" then "Free Scientist"
  else if strContains (tech_id_upper t) "CIVICS" then "Civics Boost"
  else if strContains (tech_id_upper t) "TRAINING" then "Training Boost"
  else if strContains (tech_id_upper t) "HAPPINESS" then "Happiness Boost"
  else if strContains (tech_id_upper t) "GOODS" then "Goods Bonus"
  else if strContains (tech_id_upper t) "MERCHANT" then "Free Merchant"
  else if strContains (tech_id_upper t) "SOLDIER" then "Free Court Soldier"
  else if strContains (tech_id_upper t) "BIREME" then "Free Bireme"
  else if strContains (tech_id_upper t) "CHARIOT" &&
      !(["LIGHT", "HITTITE"].any (fun n => strContains (tech_id_upper t) n)) then
    "Free Chariot"
  else if strContains (tech_id_upper t) "MACEMAN" then "Free Maceman"
  else if strContains (tech_id_upper t) "ONAGER" then "Free Onager"
  else if strContains (tech_id_upper t) "ARCHER" &&
      !(["CAMEL", "HORSE", "AKKADIAN", "CIMMERIAN", "MEDJAY", "BEJA", "CATAPHRACT"].any
          (fun s => strContains (tech_id_upper t) s)) then
    "Free Archer"
  else if strContains (tech_id_upper t) "CAMEL_ARCHER" then "Free Camel Archer"
  else if strContains (tech_id_upper t) "WAR_ELEPHANT" then "Free War Elephant"
  else if strContains (tech_id_upper t) "HORSEMAN" &&
      !(strContains (tech_id_upper t) "HORSE_ARCHER") then
    "Free Horseman"
  else if strContains (tech_id_upper t) "HORSE_ARCHER" then "Free Horse Archer"
  else if strContains (tech_id_upper t) "BALLISTA" then "Free Ballista"
  else if strContains (tech_id_upper t) "LONGBOWMAN" then "Free Longbowman"
  else if strContains (tech_id_upper t) "CROSSBOWMAN" then "Free Crossbowman"
  else if strContains (tech_id_upper t) "BATTERING_RAM" then "Free Battering Ram"
  else if strContains (tech_id_upper t) "SIEGE_TOWER" then "Free Siege Tower"
  else if strContains (tech_id_upper t) "AKKADIAN" then "Free Akkadian Archer"
  else if strContains (tech_id_upper t) "CIMMERIAN" then "Free Cimmerian Archer"
  else if strContains (tech_id_upper t) "AFRICAN_ELEPHANT" then "Free African Elephant"
  else if strContains (tech_id_upper t) "TURRETED_ELEPHANT" then "Free Turreted Elephant"
  else if strContains (tech_id_upper t) "LIGHT_CHARIOT" then "Free Light Chariot"
  else if strContains (tech_id_upper t) "MOUNTED_LANCER" then "Free Mounted Lancer"
  else if strContains (tech_id_upper t) "HOPLITE" then "Free Hoplite"
  else if strContains (tech_id_upper t) "PHALANGITE" then "Free Phalangite"
  else if strContains (tech_id_upper t) "HITTITE_CHARIOT" then "Free Hittite Chariot"
  else if strContains (tech_id_upper t) "MEDJAY" then "Free Medjay"
  else if strContains (tech_id_upper t) "BEJA" then "Free Beja Archer"
  else if strContains (tech_id_upper t) "PALTON" then "Free Palton Cavalry"
  else if strContains (tech_id_upper t) "CATAPHRACT" then "Free Cataphract Archer"
  else if strContains (tech_id_upper t) "HASTATUS" then "Free Hastatus"
  else if strContains (tech_id_upper t) "LEGIONARY" then "Free Legionary"
  else if strContains (tech_id_upper t) "DMT" then "Free Dmt Warrior"
  else if strContains (tech_id_upper t) "SHOTELAI" then "Free Shotelai"
  else if strContains t.id "RESOURCE_" then bonus_text
  else t.name

/-- Assemble the bonus-tech dictionary for one candidate:
`parent = tech["prereqs"][0] if tech.get("prereqs") else None`, the
`nation` key only added when `nationValid` is non-empty, and the
empty-chain fallback `bonus_text = tech.get("name", "Bonus")` with the
always-present name. -/
def mkBonusTech (bv : Option BonusValues) (t : Tech) : Except String BonusTech :=
  match bonusTextRaw bv t with
  | .error e => .error e
  | .ok raw =>
    let bonus_text := if raw = "" then t.name else raw
    .ok { id := t.id
        , name := bonusNameChain t bonus_text
        , cost := t.cost
        , parent := t.prereqs.head?
        , bonus := bonus_text
        , nation := t.nationValid.head? }

/-- Where the classification loop routes one tech: the first branch
takes bonus candidates that are not excluded, the second re-admits the
three victory techs to the main list, the third keeps every non-bonus
tech, and a tech matching no branch is appended to neither list. -/
inductive TechClass where
  | toBonus
  | toMain
  | dropped
deriving DecidableEq, Repr

/-- The branch structure of the loop body of `identify_bonus_techs`
(the second and third branch both append to `main_techs`, after popping
bookkeeping keys that no exported field reads). -/
def classify (t : Tech) : TechClass :=
  if t.isBonus && !shouldExclude t then .toBonus
  else if shouldExclude t && isVictory t then .toMain
  else if !t.isBonus then .toMain
  else .dropped

/-- Boolean view: the tech is appended to `main_techs`. -/
def classMain (t : Tech) : Bool :=
  match classify t with
  | .toMain => true
  | _ => false

/-- Boolean view: the tech is appended to `bonus_techs`. -/
def classBonus (t : Tech) : Bool :=
  match classify t with
  | .toBonus => true
  | _ => false

/-- Boolean view: the tech is appended to neither list. -/
def classDropped (t : Tech) : Bool :=
  match classify t with
  | .dropped => true
  | _ => false

/-- The loop of `identify_bonus_techs`, preserving iteration order and
failing at the first candidate whose rule evaluation raises. -/
def identifyAux (bv : Option BonusValues) : List Tech → Except String (List Tech × List BonusTech)
  | [] => .ok ([], [])
  | t :: ts =>
    match classify t with
    | .toBonus =>
      match mkBonusTech bv t with
      | .error e => .error e
      | .ok b =>
        match identifyAux bv ts with
        | .error e => .error e
        | .ok (ms, bs) => .ok (ms, b :: bs)
    | .toMain =>
      match identifyAux bv ts with
      | .error e => .error e
      | .ok (ms, bs) => .ok (t :: ms, bs)
    | .dropped => identifyAux bv ts

/-- `OldWorldParser.identify_bonus_techs`: partitions `self.techs` into
the final main list and bonus list. -/
def identify_bonus_techs (bv : Option BonusValues) (techs : List Tech) :
    Except String (List Tech × List BonusTech) :=
  identifyAux bv techs

/-! ## Per-category unlock passes -/

/-- The four unlock categories the passes overwrite. -/
inductive Cat where
  | units
  | improvements
  | laws
  | projects
deriving DecidableEq, Repr

/-- Overwrite one category of an unlock dictionary. -/
def Unlocks.setCat (u : Unlocks) : Cat → List String → Unlocks
  | Cat.units, l => { u with units := l }
  | Cat.improvements, l => { u with improvements := l }
  | Cat.laws, l => { u with laws := l }
  | Cat.projects, l => { u with projects := l }

/-- Read one category of an unlock dictionary. -/
def Unlocks.getCat (u : Unlocks) : Cat → List String
  | Cat.units => u.units
  | Cat.improvements => u.improvements
  | Cat.laws => u.laws
  | Cat.projects => u.projects

/-- The dictionary a given tech reads through its unlocks reference. -/
def resolveUnlocks (st : EffectStore) (t : Tech) : Unlocks :=
  match t.unlocksRef with
  | UnlocksRef.own u => u
  | UnlocksRef.shared k => (lookupA st k).getD emptyUnlocks

/-- The assignment `tech["unlocks"][category] = l`: writing through a
shared reference updates the store entry (and therefore every tech
holding the same reference), writing to an owned dictionary only
changes this tech. -/
def setCatRef (st : EffectStore) (t : Tech) (c : Cat) (l : List String) : EffectStore × Tech :=
  match t.unlocksRef with
  | UnlocksRef.own u => (st, { t with unlocksRef := UnlocksRef.own (u.setCat c l) })
  | UnlocksRef.shared k => (assocUpdate (fun u => u.setCat c l) st k, t)

/-- The update loop shared by the four passes: for every tech whose id
has an entry in the computed mapping, overwrite that category, in
`self.techs` order. -/
def applyCategoryPass (c : Cat) (m : List (String × List String)) :
    List Tech → EffectStore → List Tech × EffectStore
  | [], st => ([], st)
  | t :: ts, st =>
    match lookupA m t.id with
    | some l =>
      let p := setCatRef st t c l
      let q := applyCategoryPass c m ts p.1
      (p.2 :: q.1, q.2)
    | none =>
      let q := applyCategoryPass c m ts st
      (t :: q.1, q.2)

/-- The reverse index built by `parse_unit_unlocks` and
`parse_project_unlocks`: for every record with a truthy own id and a
truthy tech prerequisite, append the formatted display name under the
prerequisite tech id, in table order. -/
def buildTechMap (pfx : String) : List UnitXml → List (String × List String) :=
  go []
where
  /-- Accumulating worker. -/
  go (acc : List (String × List String)) : List UnitXml → List (String × List String)
    | [] => acc
    | (ut, tp) :: rest =>
      match ut, tp with
      | some u, some tid =>
        if u ≠ "" ∧ tid ≠ "" then go (assocAppend acc tid (format_name u pfx)) rest
        else go acc rest
      | _, _ => go acc rest

/-- `parse_unit_unlocks`: a missing `unit.xml` leaves everything
unchanged, otherwise overwrite the units category from the reverse
index. -/
def parse_unit_unlocks (tbl : Option (List UnitXml)) (techs : List Tech)
    (st : EffectStore) : List Tech × EffectStore :=
  match tbl with
  | none => (techs, st)
  | some entries => applyCategoryPass Cat.units (buildTechMap "UNIT_" entries) techs st

/-- The manually curated improvement override map. -/
def manual_improvement_mapping : List (String × List String) :=
  [("TECH_STONECUTTING", ["Fort", "Quarry"]),
   ("TECH_TRAPPING", ["Camp"]),
   ("TECH_DIVINATION", ["Shrine"]),
   ("TECH_ADMINISTRATION", ["Granary"]),
   ("TECH_HUSBANDRY", ["Pasture"]),
   ("TECH_DRAMA", ["Odeon"]),
   ("TECH_POLIS", ["Hamlet"]),
   ("TECH_MILITARY_DRILL", ["Barracks"]),
   ("TECH_ARISTOCRACY", ["Kushite Pyramids"]),
   ("TECH_FORESTRY", ["Lumbermill"]),
   ("TECH_COINAGE", ["Market"]),
   ("TECH_CITIZENSHIP", ["Courthouse"]),
   ("TECH_ARCHITECTURE", ["Baths"]),
   ("TECH_LAND_CONSOLIDATION", ["Grove"]),
   ("TECH_COMPOSITE_BOW", ["Range"]),
   ("TECH_MONASTICISM", ["Monastery"]),
   ("TECH_SCHOLARSHIP", ["Library"]),
   ("TECH_VAULTING", ["Cathedral"]),
   ("TECH_DOCTRINE", ["Temple"]),
   ("TECH_HYDRAULICS", ["Mill"]),
   ("TECH_CARTOGRAPHY", ["Harbor"])]

/-- `parse_improvement_unlocks`: applied only when `improvement.xml`
exists, although the table content itself is never read. -/
def parse_improvement_unlocks (present : Bool) (techs : List Tech)
    (st : EffectStore) : List Tech × EffectStore :=
  if present then applyCategoryPass Cat.improvements manual_improvement_mapping techs st
  else (techs, st)

/-- The manually curated law override map. -/
def manual_law_mapping : List (String × List String) :=
  [("TECH_LABOR_FORCE", ["Slavery/Freedom"]),
   ("TECH_ARISTOCRACY", ["Centralization/Vassalage"]),
   ("TECH_RHETORIC", ["Epics/Exploration"]),
   ("TECH_NAVIGATION", ["Colonies/Serfdom"]),
   ("TECH_SOVEREIGNTY", ["Tyranny/Constitution"]),
   ("TECH_CITIZENSHIP", ["Divine Rule/Legal Code"]),
   ("TECH_ARCHITECTURE", ["Philosophy/Engineering"]),
   ("TECH_MONASTICISM", ["Monotheism/Polytheism"]),
   ("TECH_VAULTING", ["Iconography/Calligraphy"]),
   ("TECH_MANOR", ["Professional Army/Volunteers"]),
   ("TECH_DOCTRINE", ["Tolerance/Orthodoxy"]),
   ("TECH_LATEEN_SAIL", ["Autarky/Trade League"]),
   ("TECH_JURISPRUDENCE", ["Guilds/Elites"]),
   ("TECH_MARTIAL_CODE", ["Pilgrimage/Holy War"]),
   ("TECH_FISCAL_POLICY", ["Coin Debasement/Monetary Reform"])]

/-- `parse_law_unlocks`: applied only when `law.xml` exists; its content
is parsed but unused. -/
def parse_law_unlocks (present : Bool) (techs : List Tech)
    (st : EffectStore) : List Tech × EffectStore :=
  if present then applyCategoryPass Cat.laws manual_law_mapping techs st
  else (techs, st)

/-- `parse_project_unlocks`: like the unit pass, with the project name
formatting (trailing tier numbers stripped). -/
def parse_project_unlocks (tbl : Option (List UnitXml)) (techs : List Tech)
    (st : EffectStore) : List Tech × EffectStore :=
  match tbl with
  | none => (techs, st)
  | some entries => applyCategoryPass Cat.projects (buildTechMap "PROJECT_" entries) techs st

/-! ## Model assembly (`export_data`) -/

/-- An exported main tech with its unlock reference resolved against the
final store; the bookkeeping keys popped by `identify_bonus_techs` are
not part of this shape. -/
structure ResolvedTech where
  id : String
  name : String
  description : String
  cost : Int
  row : Int
  column : Int
  prereqs : List String
  unlocks : Unlocks
deriving DecidableEq, Repr

/-- Resolve one stored tech dictionary for export. -/
def resolveTech (st : EffectStore) (t : Tech) : ResolvedTech :=
  { id := t.id, name := t.name, description := t.description, cost := t.cost
  , row := t.row, column := t.column, prereqs := t.prereqs
  , unlocks := resolveUnlocks st t }

/-- The grouping of nation-specific bonus techs: bonus entries whose
`nation` key is present (and truthy) are appended under that nation, in
bonus-list order. -/
def nationBonusAux (acc : List (String × List String)) :
    List BonusTech → List (String × List String)
  | [] => acc
  | b :: bs =>
    match b.nation with
    | some n =>
      if n ≠ "" then nationBonusAux (assocAppend acc n b.id) bs
      else nationBonusAux acc bs
    | none => nationBonusAux acc bs

/-- The final export model of `export_data`. -/
structure ExportModel where
  techs : List ResolvedTech
  bonusTechs : List BonusTech
  startingTechs : List (String × List String)
  nationNames : List (String × String)
  nationSpecificBonuses : List (String × List String)
deriving DecidableEq, Repr

/-- `OldWorldParser.export_data`. -/
def export_data (st : EffectStore) (techs : List Tech) (bonus_techs : List BonusTech)
    (nations : List (String × NationInfo)) : ExportModel :=
  { techs := techs.map (resolveTech st)
  , bonusTechs := bonus_techs
  , startingTechs := nations.map (fun p => (p.1, p.2.startingTechs))
  , nationNames := nations.map (fun p => (p.1, p.2.name))
  , nationSpecificBonuses := nationBonusAux [] bonus_techs }

/-! ## The batch pipeline (`parse_all` followed by `export_data`) -/

/-- The input directory: one optional table per category.  For
`improvement.xml` and `law.xml` only presence matters, because the
passes that check them use the manual maps. -/
structure Inputs where
  textInfos : Option (List TextXml)
  textNation : Option (List TextXml)
  textBonus : Option (List TextXml)
  effectPlayer : Option (List EffectXml)
  techTbl : Option (List TechXml)
  nationTbl : Option (List NationXml)
  bonusTbl : Option (List BonusXml)
  unitTbl : Option (List UnitXml)
  improvementPresent : Bool
  lawPresent : Bool
  projectTbl : Option (List UnitXml)

/-- `parse_all` then `export_data`, in source order; the only failure
paths are the two uncaught-exception sites (`parse_bonuses` content and
`get_bonus_value` through `identify_bonus_techs`). -/
def runPipeline (inp : Inputs) : Except String ExportModel :=
  let td := parse_text inp.textBonus (parse_text inp.textNation (parse_text inp.textInfos []))
  let st0 := parse_effect_player inp.effectPlayer
  let techs0 := parse_techs td st0 inp.techTbl
  let nations := parse_nations inp.nationTbl td
  match parse_bonuses inp.bonusTbl with
  | .error e => .error e
  | .ok bv =>
    let r1 := parse_unit_unlocks inp.unitTbl techs0 st0
    let r2 := parse_improvement_unlocks inp.improvementPresent r1.1 r1.2
    let r3 := parse_law_unlocks inp.lawPresent r2.1 r2.2
    let r4 := parse_project_unlocks inp.projectTbl r3.1 r3.2
    match identify_bonus_techs bv r4.1 with
    | .error e => .error e
    | .ok p => .ok (export_data r4.2 p.1 p.2 nations)

/-! ## Helper lemmas -/

/-- A successful `parse_tech_node` comes from a truthy `zType` and
returns the record built by `techOfRec`. -/
theorem parse_tech_node_some {td : List (String × String)} {st : EffectStore}
    {rec : TechXml} {t : Tech} (h : parse_tech_node td st rec = some t) :
    ∃ tid, rec.zType = some tid ∧ tid ≠ "" ∧ t = techOfRec td st rec tid := by
  cases hz : rec.zType with
  | none => simp [parse_tech_node, hz] at h
  | some tid =>
    by_cases htid : tid = ""
    · simp [parse_tech_node, hz, htid] at h
    · simp only [parse_tech_node, hz, htid, if_neg, ite_false, Option.some_inj] at h
      exact ⟨tid, rfl, htid, h.symm⟩

/-- `get_int_value` returns the default whenever the text is missing,
empty, or rejected by the integer parser. -/
theorem get_int_value_default (txt : Option String) (d : Int)
    (h : ∀ s, txt = some s → pyInt s = none) : get_int_value txt d = d := by
  cases txt with
  | none => rfl
  | some s =>
    rw [get_int_value]
    by_cases hs : s = ""
    · rw [if_neg (by simp [hs])]
    · rw [if_pos (by simp [hs]), h s rfl]; rfl

/-- Updating a stored key is visible to a lookup of that key. -/
theorem lookupA_assocUpdate_self {α : Type} (f : α → α) :
    ∀ (st : List (String × α)) (k : String) (u : α),
      lookupA st k = some u → lookupA (assocUpdate f st k) k = some (f u)
  | [], k, u => by intro h; cases h
  | (k', v) :: rest, k, u => by
    intro h
    by_cases hk : k' = k
    · subst hk
      rw [lookupA, if_pos rfl] at h
      cases h
      rw [assocUpdate, if_pos rfl, lookupA, if_pos rfl]
    · rw [lookupA, if_neg hk] at h
      rw [assocUpdate, if_neg hk, lookupA, if_neg hk]
      exact lookupA_assocUpdate_self f rest k u h

/-- Setting then reading the same unlock category. -/
theorem Unlocks.getCat_setCat (u : Unlocks) (c : Cat) (l : List String) :
    (u.setCat c l).getCat c = l := by
  cases c <;> rfl

/-! ## C6: numeric fields never raise and default to 0 -/

/-- C6: for every tech record, parsing the cost, row, and column fields
is total (the embedding is a function), and a missing or non-numeric
field text yields the documented default 0 in the parsed model. -/
theorem c6_numeric_fields_default (td : List (String × String)) (st : EffectStore)
    (rec : TechXml) (t : Tech) (h : parse_tech_node td st rec = some t)
    (hc : ∀ s, rec.iCost = some s → pyInt s = none)
    (hr : ∀ s, rec.iRow = some s → pyInt s = none)
    (hcol : ∀ s, rec.iColumn = some s → pyInt s = none) :
    t.cost = 0 ∧ t.row = 0 ∧ t.column = 0 := by
  obtain ⟨tid, _, _, hrec⟩ := parse_tech_node_some h
  subst hrec
  exact ⟨get_int_value_default rec.iCost 0 hc,
         get_int_value_default rec.iRow 0 hr,
         get_int_value_default rec.iColumn 0 hcol⟩

/-- A tech record whose numeric fields are a non-numeric text, an
absent element, and a text with a stray letter. -/
def recBadNumbers : TechXml :=
  { zType := some "TECH_X", iCost := some "abc", iRow := none, iColumn := some "12x"
  , abTechPrereq := [], effectPlayer := none, nameTag := none, adviceTag := none
  , bHide := none, bTrash := none, bNoFree := none, bonusDiscover := none
  , aeNationValid := [] }

/-- Witness for C6 at a concrete record. -/
theorem c6_numeric_fields_default_witness :
    parse_tech_node [] [] recBadNumbers = some (techOfRec [] [] recBadNumbers "TECH_X") ∧
    (techOfRec [] [] recBadNumbers "TECH_X").cost = 0 ∧
    (techOfRec [] [] recBadNumbers "TECH_X").row = 0 ∧
    (techOfRec [] [] recBadNumbers "TECH_X").column = 0 := by
  refine ⟨rfl, ?_⟩
  refine c6_numeric_fields_default [] [] recBadNumbers _ rfl ?_ ?_ ?_
  · intro s hs
    cases hs
    rfl
  · intro s hs
    cases hs
  · intro s hs
    cases hs
    rfl

/-! ## C7: prerequisite bit-matrix sentinel -/

/-- C7: an id from the prerequisite bit-matrix is included in the
parsed prereq list iff some pair carries it with the flag text exactly
`"1"` (and a truthy id); a pair with any other flag value contributes
nothing. -/
theorem c7_prereq_sentinel (td : List (String × String)) (st : EffectStore)
    (rec : TechXml) (t : Tech) (h : parse_tech_node td st rec = some t)
    (x : String) :
    x ∈ t.prereqs ↔
      ∃ v, ((some x, v) : PrereqPair) ∈ rec.abTechPrereq ∧ x ≠ "" ∧ v = some "1" := by
  obtain ⟨tid, _, _, hrec⟩ := parse_tech_node_some h
  subst hrec
  show x ∈ rec.abTechPrereq.filterMap prereqF ↔ _
  rw [List.mem_filterMap]
  constructor
  · rintro ⟨⟨i?, v⟩, hm, hf⟩
    cases i? with
    | none => cases hf
    | some i =>
      simp only [prereqF] at hf
      by_cases hcond : i ≠ "" ∧ v = some "1"
      · rw [if_pos hcond] at hf
        obtain rfl : i = x := Option.some_inj.mp hf
        exact ⟨v, hm, hcond.1, hcond.2⟩
      · rw [if_neg hcond] at hf
        cases hf
  · rintro ⟨v, hm, hx, hv⟩
    refine ⟨(some x, v), hm, ?_⟩
    simp only [prereqF]
    rw [if_pos ⟨hx, hv⟩]

/-- A record with one true-flag pair, one zero-flag pair, and one pair
whose flag is a different non-empty value. -/
def recPrereqs : TechXml :=
  { zType := some "TECH_Y", iCost := none, iRow := none, iColumn := none
  , abTechPrereq := [(some "TECH_A", some "1"), (some "TECH_B", some "0"),
                     (some "TECH_C", some "true")]
  , effectPlayer := none, nameTag := none, adviceTag := none
  , bHide := none, bTrash := none, bNoFree := none, bonusDiscover := none
  , aeNationValid := [] }

/-- Witness for C7 at a concrete record: the `"1"`-flagged id is in,
the `"true"`-flagged id is out. -/
theorem c7_prereq_sentinel_witness :
    "TECH_A" ∈ (techOfRec [] [] recPrereqs "TECH_Y").prereqs ∧
    "TECH_C" ∉ (techOfRec [] [] recPrereqs "TECH_Y").prereqs := by
  constructor
  · exact (c7_prereq_sentinel [] [] recPrereqs _ rfl "TECH_A").mpr
      ⟨some "1", by decide, by decide, rfl⟩
  · intro hmem
    obtain ⟨v, hv, -, hv1⟩ := (c7_prereq_sentinel [] [] recPrereqs _ rfl "TECH_C").mp hmem
    subst hv1
    exact absurd hv (by decide)

/-! ## C10: shared effect-player unlock objects alias -/

/-- C10: when two tech records hold the same effect-player unlocks
reference, a per-category pass that overwrites that category for the
first tech also changes what the second tech reads for that category,
even though the mapping has no entry for the second tech. -/
theorem c10_shared_unlocks_alias (c : Cat) (k : String) (u0 : Unlocks)
    (l : List String) (tA tB : Tech) (st : EffectStore)
    (m : List (String × List String))
    (hA : tA.unlocksRef = UnlocksRef.shared k) (hB : tB.unlocksRef = UnlocksRef.shared k)
    (hst : lookupA st k = some u0)
    (hmA : lookupA m tA.id = some l) (hmB : lookupA m tB.id = none) :
    (resolveUnlocks (applyCategoryPass c m [tA, tB] st).2 tB).getCat c = l := by
  have hstep : (applyCategoryPass c m [tA, tB] st).2
      = assocUpdate (fun u => u.setCat c l) st k := by
    simp [applyCategoryPass, hmA, hmB, setCatRef, hA]
  rw [hstep]
  simp only [resolveUnlocks, hB, lookupA_assocUpdate_self _ st k u0 hst, Option.getD_some]
  exact Unlocks.getCat_setCat u0 c l

/-- The effect-player table with the single shared entry used in the
aliasing scenarios. -/
def effectTableE : List EffectXml :=
  [{ zType := some "EFFECT_E", units := [], improvements := [], laws := []
   , projects := [], specialists := [] }]

/-- The store built from that table. -/
def storeE : EffectStore := parse_effect_player (some effectTableE)

/-- A tech record pointing at the shared effect entry. -/
def recSharedEffect (tid : String) : TechXml :=
  { zType := some tid, iCost := none, iRow := none, iColumn := none
  , abTechPrereq := [], effectPlayer := some "EFFECT_E", nameTag := none
  , adviceTag := none, bHide := none, bTrash := none, bNoFree := none
  , bonusDiscover := none, aeNationValid := [] }

/-- The two parsed techs sharing one unlocks dictionary. -/
def techShared (tid : String) : Tech := techOfRec [] storeE (recSharedEffect tid) tid

/-- The one-record unit table whose only entry is gated behind the
first shared tech. -/
def spearTable : List UnitXml := [(some "UNIT_SPEARMAN", some "TECH_A")]

/-- Witness for C10: overwriting the units of the first shared tech
makes the second shared tech read the same list. -/
theorem c10_shared_unlocks_alias_witness :
    (resolveUnlocks
      (applyCategoryPass Cat.units (buildTechMap "UNIT_" spearTable)
        [techShared "TECH_A", techShared "TECH_B"] storeE).2
      (techShared "TECH_B")).getCat Cat.units = ["Spearman"] :=
  c10_shared_unlocks_alias Cat.units "EFFECT_E" emptyUnlocks
    ["Spearman"] (techShared "TECH_A") (techShared "TECH_B") storeE
    (buildTechMap "UNIT_" spearTable) rfl rfl rfl rfl rfl

/-! ## C3: missing bonus.xml crashes value-reading classification -/

/-- A bonus-candidate tech record whose id routes the classification
chain through a numeric bonus lookup. -/
def recBonusFood : TechXml :=
  { zType := some "TECH_BONUS_FOOD", iCost := none, iRow := none, iColumn := none
  , abTechPrereq := [], effectPlayer := none, nameTag := none, adviceTag := none
  , bHide := some "1", bTrash := none, bNoFree := none, bonusDiscover := none
  , aeNationValid := [] }

/-- The parsed singleton tech list for the C3 scenario. -/
def bonusFoodTechs : List Tech := parse_techs [] [] (some [recBonusFood])

/-- C3: with `bonus.xml` absent, `parse_bonuses` returns before
assigning `self.bonus_values`, and classifying a bonus candidate whose
rule reads a numeric bonus value then dereferences the missing
attribute and raises instead of completing; with the table present but
empty the same run completes with the documented fixed default. -/
theorem c3_missing_bonus_table_crashes :
    parse_bonuses none = .ok none ∧
    identify_bonus_techs none bonusFoodTechs =
      .error "AttributeError: OldWorldParser object has no attribute bonus_values" ∧
    identify_bonus_techs (some []) bonusFoodTechs =
      .ok ([], [{ id := "TECH_BONUS_FOOD", name := "Food Boost", cost := 0
                , parent := none, bonus := "+200 Food", nation := none }]) :=
  ⟨rfl, rfl, rfl⟩

/-! ## C8: bonus-tech parent and nation field presence -/

/-- A bonus-candidate worker record with no prerequisites and no nation
restriction. -/
def recBonusWorker : TechXml :=
  { zType := some "TECH_BONUS_WORKER", iCost := none, iRow := none, iColumn := none
  , abTechPrereq := [], effectPlayer := none, nameTag := none, adviceTag := none
  , bHide := some "1", bTrash := none, bNoFree := none, bonusDiscover := none
  , aeNationValid := [] }

/-- The parsed singleton tech list for the C8 scenario. -/
def bonusWorkerTechs : List Tech := parse_techs [] [] (some [recBonusWorker])

/-- C8 counterexample: for a bonus tech without prerequisites the
exported `parent` value is the absent value `None` (here `none`), not
the empty string the claim requires. -/
theorem c8_parent_is_none_cex :
    identify_bonus_techs (some []) bonusWorkerTechs =
      .ok ([], [{ id := "TECH_BONUS_WORKER", name := "Free Worker", cost := 0
                , parent := none, bonus := "+1 Worker", nation := none }]) ∧
    (none : Option String) ≠ some "" :=
  ⟨rfl, by simp⟩

/-- C8 (amended): the `parent` value of an assembled bonus tech is the
first prerequisite or `None` (not the empty string) when there is none,
and the `nation` key is present with the first nation id exactly when
the source tech declared a nation restriction, omitted otherwise. -/
theorem c8_parent_nation_fields (bv : Option BonusValues) (t : Tech) (b : BonusTech)
    (h : mkBonusTech bv t = .ok b) :
    b.parent = t.prereqs.head? ∧ b.nation = t.nationValid.head? ∧
    (t.prereqs = [] → b.parent = none) ∧
    (∀ p ps, t.prereqs = p :: ps → b.parent = some p) ∧
    (t.nationValid = [] → b.nation = none) ∧
    (∀ n ns, t.nationValid = n :: ns → b.nation = some n) := by
  cases hr : bonusTextRaw bv t with
  | error e => simp only [mkBonusTech, hr] at h; exact Except.noConfusion h
  | ok raw =>
    simp only [mkBonusTech, hr, Except.ok.injEq] at h
    subst h
    refine ⟨rfl, rfl, ?_, ?_, ?_, ?_⟩
    · intro hp; simp [hp]
    · intro p ps hp; simp [hp]
    · intro hn; simp [hn]
    · intro n ns hn; simp [hn]

/-- A bonus-candidate record with one prerequisite and one nation
restriction. -/
def recBonusNation : TechXml :=
  { zType := some "TECH_BONUS_HOPLITE_1", iCost := none, iRow := none, iColumn := none
  , abTechPrereq := [(some "TECH_PHALANX", some "1")], effectPlayer := none
  , nameTag := none, adviceTag := none, bHide := some "1", bTrash := none
  , bNoFree := none, bonusDiscover := none, aeNationValid := [some "NATION_GREECE"] }

/-- Witness for C8 at concrete records: with a prerequisite and a
nation the fields are populated from the heads, and without them the
parent is `none` and the nation key absent. -/
theorem c8_parent_nation_fields_witness :
    mkBonusTech (some []) (techOfRec [] [] recBonusNation "TECH_BONUS_HOPLITE_1") =
      .ok { id := "TECH_BONUS_HOPLITE_1", name := "Free Hoplite", cost := 0
          , parent := some "TECH_PHALANX", bonus := "+1 Hoplite"
          , nation := some "NATION_GREECE" } ∧
    mkBonusTech (some []) (techOfRec [] [] recBonusWorker "TECH_BONUS_WORKER") =
      .ok { id := "TECH_BONUS_WORKER", name := "Free Worker", cost := 0
          , parent := none, bonus := "+1 Worker", nation := none } ∧
    (some "TECH_PHALANX" : Option String) = (techOfRec [] [] recBonusNation
      "TECH_BONUS_HOPLITE_1").prereqs.head? ∧
    (none : Option String) = (techOfRec [] [] recBonusWorker
      "TECH_BONUS_WORKER").nationValid.head? := by
  have h1 := c8_parent_nation_fields (some [])
    (techOfRec [] [] recBonusNation "TECH_BONUS_HOPLITE_1")
    { id := "TECH_BONUS_HOPLITE_1", name := "Free Hoplite", cost := 0
    , parent := some "TECH_PHALANX", bonus := "+1 Hoplite", nation := some "NATION_GREECE" }
    rfl
  have h2 := c8_parent_nation_fields (some [])
    (techOfRec [] [] recBonusWorker "TECH_BONUS_WORKER")
    { id := "TECH_BONUS_WORKER", name := "Free Worker", cost := 0
    , parent := none, bonus := "+1 Worker", nation := none }
    rfl
  exact ⟨rfl, rfl, h1.1, h2.2.1⟩

/-! ## C1 and C2: partitioning of the classification loop -/

/-- Resolving a tech for export keeps its id. -/
theorem resolveTech_id (st : EffectStore) (t : Tech) : (resolveTech st t).id = t.id := rfl

/-- A tech is appended to neither output list exactly when it is a
bonus candidate carrying an exclusion marker but no victory marker. -/
theorem classDropped_iff (t : Tech) :
    classDropped t = true ↔
      (t.isBonus = true ∧ shouldExclude t = true ∧ isVictory t = false) := by
  cases hb : t.isBonus <;> cases hse : shouldExclude t <;> cases hv : isVictory t <;>
    simp [classDropped, classify, hb, hse, hv]

/-- A successfully assembled bonus tech keeps the id of its source
tech. -/
theorem mkBonusTech_id {bv : Option BonusValues} {t : Tech} {b : BonusTech}
    (h : mkBonusTech bv t = .ok b) : b.id = t.id := by
  cases hr : bonusTextRaw bv t with
  | error e => simp only [mkBonusTech, hr] at h; exact Except.noConfusion h
  | ok raw =>
    simp only [mkBonusTech, hr, Except.ok.injEq] at h
    subst h
    rfl

/-- Characterization of a successful classification run: the main list
is the techs routed to main (in order), and the bonus list carries
exactly the ids of the techs routed to bonus (in order). -/
theorem identifyAux_ok_spec (bv : Option BonusValues) (techs : List Tech) :
    ∀ (ms : List Tech) (bs : List BonusTech),
      identifyAux bv techs = .ok (ms, bs) →
      ms = techs.filter classMain ∧
      bs.map BonusTech.id = (techs.filter classBonus).map Tech.id := by
  induction techs with
  | nil =>
    intro ms bs h
    simp only [identifyAux, Except.ok.injEq, Prod.mk.injEq] at h
    simp [← h.1, ← h.2]
  | cons t ts ih =>
    intro ms bs h
    cases hc : classify t with
    | toBonus =>
      have hmain : classMain t = false := by simp [classMain, hc]
      have hbon : classBonus t = true := by simp [classBonus, hc]
      simp only [identifyAux, hc] at h
      cases hm : mkBonusTech bv t with
      | error e => rw [hm] at h; exact Except.noConfusion h
      | ok b =>
        rw [hm] at h
        cases hrec : identifyAux bv ts with
        | error e => rw [hrec] at h; exact Except.noConfusion h
        | ok p =>
          obtain ⟨ms', bs'⟩ := p
          rw [hrec] at h
          simp only [Except.ok.injEq, Prod.mk.injEq] at h
          obtain ⟨h1, h2⟩ := h
          subst h1
          subst h2
          obtain ⟨ih1, ih2⟩ := ih ms' bs' hrec
          constructor
          · simpa [List.filter_cons, hmain] using ih1
          · simp [List.filter_cons, hbon, List.map_cons, mkBonusTech_id hm, ih2]
    | toMain =>
      have hmain : classMain t = true := by simp [classMain, hc]
      have hbon : classBonus t = false := by simp [classBonus, hc]
      simp only [identifyAux, hc] at h
      cases hrec : identifyAux bv ts with
      | error e => rw [hrec] at h; exact Except.noConfusion h
      | ok p =>
        obtain ⟨ms', bs'⟩ := p
        rw [hrec] at h
        simp only [Except.ok.injEq, Prod.mk.injEq] at h
        obtain ⟨h1, h2⟩ := h
        subst h1
        subst h2
        obtain ⟨ih1, ih2⟩ := ih ms' bs' hrec
        constructor
        · simp [List.filter_cons, hmain, ih1]
        · simpa [List.filter_cons, hbon] using ih2
    | dropped =>
      have hmain : classMain t = false := by simp [classMain, hc]
      have hbon : classBonus t = false := by simp [classBonus, hc]
      simp only [identifyAux, hc] at h
      obtain ⟨ih1, ih2⟩ := ih ms bs h
      constructor
      · simpa [List.filter_cons, hmain] using ih1
      · simpa [List.filter_cons, hbon] using ih2

/-- Counting one id across the two routed sublists equals counting it
across the non-dropped techs. -/
theorem classify_count (techs : List Tech) (x : String) :
    ((techs.filter classMain).map Tech.id).count x
      + ((techs.filter classBonus).map Tech.id).count x
      = ((techs.filter (fun u => !classDropped u)).map Tech.id).count x := by
  induction techs with
  | nil => simp
  | cons t ts ih =>
    cases hc : classify t with
    | toBonus =>
      have h1 : classMain t = false := by simp [classMain, hc]
      have h2 : classBonus t = true := by simp [classBonus, hc]
      have h3 : classDropped t = false := by simp [classDropped, hc]
      simp [List.filter_cons, h1, h2, h3, List.count_cons]
      omega
    | toMain =>
      have h1 : classMain t = true := by simp [classMain, hc]
      have h2 : classBonus t = false := by simp [classBonus, hc]
      have h3 : classDropped t = false := by simp [classDropped, hc]
      simp [List.filter_cons, h1, h2, h3, List.count_cons]
      omega
    | dropped =>
      have h1 : classMain t = false := by simp [classMain, hc]
      have h2 : classBonus t = false := by simp [classBonus, hc]
      have h3 : classDropped t = true := by simp [classDropped, hc]
      simp [List.filter_cons, h1, h2, h3]
      exact ih

/-- The exported main-tech ids are the classified main-tech ids. -/
theorem export_tech_ids (st : EffectStore) (ms : List Tech) (bs : List BonusTech)
    (nations : List (String × NationInfo)) :
    (export_data st ms bs nations).techs.map ResolvedTech.id = ms.map Tech.id := by
  show (ms.map (resolveTech st)).map ResolvedTech.id = ms.map Tech.id
  rw [List.map_map]
  rfl

/-- C1 (amended): after a successful classification run, every parsed
tech that is not a bonus-flagged excluded-marker tech without a victory
marker has its id in exactly one of the two partitions of the final
model (tech ids being unique, as the source table guarantees); a
bonus-flagged tech whose id carries the event marker but no victory
marker is appended to neither list (see the counterexample). -/
theorem c1_partition_amended (bv : Option BonusValues) (techs : List Tech)
    (st : EffectStore) (nations : List (String × NationInfo))
    (hnd : (techs.map Tech.id).Nodup) (t : Tech) (ht : t ∈ techs)
    (hnodrop : ¬(t.isBonus = true ∧ shouldExclude t = true ∧ isVictory t = false))
    (ms : List Tech) (bs : List BonusTech)
    (h : identify_bonus_techs bv techs = .ok (ms, bs)) :
    ((export_data st ms bs nations).techs.map ResolvedTech.id).count t.id
      + ((export_data st ms bs nations).bonusTechs.map BonusTech.id).count t.id = 1 := by
  obtain ⟨hms, hbs⟩ := identifyAux_ok_spec bv techs ms bs h
  rw [export_tech_ids]
  show (ms.map Tech.id).count t.id + (bs.map BonusTech.id).count t.id = 1
  rw [hms, hbs, classify_count techs t.id]
  have hdrop : classDropped t = false := by
    cases hd : classDropped t
    · rfl
    · exact absurd ((classDropped_iff t).mp hd) hnodrop
  have hmem : t ∈ techs.filter (fun u => !classDropped u) :=
    List.mem_filter.mpr ⟨ht, by simp [hdrop]⟩
  have hnd2 : ((techs.filter (fun u => !classDropped u)).map Tech.id).Nodup :=
    hnd.sublist (List.Sublist.map Tech.id (List.filter_sublist techs))
  exact List.count_eq_one_of_mem hnd2 (List.mem_map_of_mem Tech.id hmem)

/-- A bonus-flagged record whose id carries the event marker. -/
def recEventTribute : TechXml :=
  { zType := some "TECH_EVENT_TRIBUTE", iCost := none, iRow := none, iColumn := none
  , abTechPrereq := [], effectPlayer := none, nameTag := none, adviceTag := none
  , bHide := some "1", bTrash := none, bNoFree := none, bonusDiscover := none
  , aeNationValid := [] }

/-- The parsed singleton tech list for the dropped-tech scenario. -/
def eventTributeTechs : List Tech := parse_techs [] [] (some [recEventTribute])

/-- C1 counterexample: a parsed bonus-flagged tech whose id carries the
event marker (and no victory marker) ends up in neither partition — the
classification loop has no branch for it, so both output lists are
empty and the id is dropped from the model, refuting that every parsed
tech appears in exactly one partition. -/
theorem c1_event_bonus_dropped_cex :
    eventTributeTechs.map Tech.id = ["TECH_EVENT_TRIBUTE"] ∧
    eventTributeTechs.map Tech.isBonus = [true] ∧
    strContains "TECH_EVENT_TRIBUTE" "EVENT_" = true ∧
    identify_bonus_techs (some []) eventTributeTechs = .ok ([], []) :=
  ⟨rfl, rfl, rfl, rfl⟩

/-- A plain main-tech record for the C1 witness. -/
def recPlain : TechXml :=
  { zType := some "TECH_STONECUTTING", iCost := some "100", iRow := none, iColumn := none
  , abTechPrereq := [], effectPlayer := none, nameTag := none, adviceTag := none
  , bHide := none, bTrash := none, bNoFree := none, bonusDiscover := none
  , aeNationValid := [] }

/-- The parsed singleton tech list for the C1 witness. -/
def plainTechs : List Tech := parse_techs [] [] (some [recPlain])

/-- Witness for C1 at a concrete run: the non-bonus tech id is counted
exactly once across the two partitions. -/
theorem c1_partition_amended_witness :
    identify_bonus_techs (some []) plainTechs = .ok (plainTechs, []) ∧
    ((export_data [] plainTechs [] []).techs.map ResolvedTech.id).count "TECH_STONECUTTING"
      + ((export_data [] [] [] []).bonusTechs.map BonusTech.id).count "TECH_STONECUTTING"
      = 1 := by
  refine ⟨rfl, ?_⟩
  have h := c1_partition_amended (some []) plainTechs [] []
    (by simp [plainTechs, parse_techs, parse_tech_node, recPlain])
    (techOfRec [] [] recPlain "TECH_STONECUTTING")
    (List.mem_singleton_self _)
    (by decide)
    plainTechs [] rfl
  simpa using h

/-- The exclusion list contains every victory marker. -/
theorem shouldExclude_of_isVictory {t : Tech} (h : isVictory t = true) :
    shouldExclude t = true := by
  simp only [isVictory, victory_list, List.any_cons, List.any_nil, Bool.or_eq_true,
    Bool.or_false] at h
  simp only [shouldExclude, exclude_from_bonus, List.any_cons, List.any_nil, Bool.or_eq_true,
    Bool.or_false]
  tauto

/-- C2 (amended): a tech whose id carries one of the three victory
markers is always routed to the exported main partition, whatever its
raw bonus flag, and (with unique ids) never to the bonus partition; a
tech carrying only the event marker of the exclusion list is not
re-admitted and, when bonus-flagged, lands in neither partition (see
the counterexample). -/
theorem c2_victory_override_amended (bv : Option BonusValues) (techs : List Tech)
    (st : EffectStore) (nations : List (String × NationInfo))
    (t : Tech) (ht : t ∈ techs) (hvic : isVictory t = true)
    (ms : List Tech) (bs : List BonusTech)
    (h : identify_bonus_techs bv techs = .ok (ms, bs)) :
    t.id ∈ (export_data st ms bs nations).techs.map ResolvedTech.id ∧
    ((techs.map Tech.id).Nodup →
      t.id ∉ (export_data st ms bs nations).bonusTechs.map BonusTech.id) := by
  obtain ⟨hms, hbs⟩ := identifyAux_ok_spec bv techs ms bs h
  have hse := shouldExclude_of_isVictory hvic
  have hcl : classify t = TechClass.toMain := by
    simp [classify, hse, hvic]
  have hmain : classMain t = true := by simp [classMain, hcl]
  constructor
  · rw [export_tech_ids, hms]
    exact List.mem_map_of_mem Tech.id (List.mem_filter.mpr ⟨ht, hmain⟩)
  · intro hnd hmem
    have hmem2 : t.id ∈ (techs.filter classBonus).map Tech.id := by
      rw [← hbs]
      exact hmem
    obtain ⟨u, hu, huid⟩ := List.mem_map.mp hmem2
    have hu2 := List.mem_filter.mp hu
    have hut : u = t := List.inj_on_of_nodup_map hnd hu2.1 ht huid
    subst hut
    have : classBonus u = false := by simp [classBonus, hcl]
    rw [this] at hu2
    exact Bool.noConfusion hu2.2

/-- A bonus-flagged record whose id carries a different event marker
(used for the C2 counterexample). -/
def recEventGift : TechXml :=
  { zType := some "TECH_EVENT_GIFT", iCost := none, iRow := none, iColumn := none
  , abTechPrereq := [], effectPlayer := none, nameTag := none, adviceTag := none
  , bHide := some "1", bTrash := none, bNoFree := none, bonusDiscover := none
  , aeNationValid := [] }

/-- The parsed singleton tech list for the C2 counterexample. -/
def eventGiftTechs : List Tech := parse_techs [] [] (some [recEventGift])

/-- C2 counterexample: the claim quantifies over the victory and event
markers together, but a parsed bonus-flagged tech whose id carries the
event marker is not placed in the main set — the run yields an empty
main list (the tech is dropped entirely), so the override holds only
for the three victory markers. -/
theorem c2_event_marker_not_main_cex :
    eventGiftTechs.map Tech.id = ["TECH_EVENT_GIFT"] ∧
    eventGiftTechs.map Tech.isBonus = [true] ∧
    strContains "TECH_EVENT_GIFT" "EVENT_" = true ∧
    identify_bonus_techs (some []) eventGiftTechs = .ok ([], []) :=
  ⟨rfl, rfl, rfl, rfl⟩

/-- A bonus-flagged record whose id carries a victory marker. -/
def recVictory : TechXml :=
  { zType := some "TECH_ECONOMIC_REFORM_1", iCost := none, iRow := none, iColumn := none
  , abTechPrereq := [], effectPlayer := none, nameTag := none, adviceTag := none
  , bHide := some "1", bTrash := none, bNoFree := none, bonusDiscover := none
  , aeNationValid := [] }

/-- The parsed singleton tech list for the C2 witness. -/
def victoryTechs : List Tech := parse_techs [] [] (some [recVictory])

/-- Witness for C2 at a concrete run: the bonus-flagged victory tech is
exported among the main techs and not among the bonus techs. -/
theorem c2_victory_override_amended_witness :
    "TECH_ECONOMIC_REFORM_1" ∈
      (export_data [] victoryTechs [] []).techs.map ResolvedTech.id ∧
    "TECH_ECONOMIC_REFORM_1" ∉
      (export_data [] victoryTechs [] []).bonusTechs.map BonusTech.id := by
  have h := c2_victory_override_amended (some []) victoryTechs [] []
    (techOfRec [] [] recVictory "TECH_ECONOMIC_REFORM_1")
    (List.mem_singleton_self _)
    (by decide)
    victoryTechs [] rfl
  exact ⟨h.1, h.2 (by simp [victoryTechs, parse_techs, parse_tech_node, recVictory])⟩

/-! ## C4: missing mandatory technology table -/

/-- The unit pass is the identity on an empty tech list. -/
theorem parse_unit_unlocks_nil (tbl : Option (List UnitXml)) (st : EffectStore) :
    parse_unit_unlocks tbl [] st = ([], st) := by
  cases tbl <;> rfl

/-- The improvement pass is the identity on an empty tech list. -/
theorem parse_improvement_unlocks_nil (p : Bool) (st : EffectStore) :
    parse_improvement_unlocks p [] st = ([], st) := by
  cases p <;> rfl

/-- The law pass is the identity on an empty tech list. -/
theorem parse_law_unlocks_nil (p : Bool) (st : EffectStore) :
    parse_law_unlocks p [] st = ([], st) := by
  cases p <;> rfl

/-- The project pass is the identity on an empty tech list. -/
theorem parse_project_unlocks_nil (tbl : Option (List UnitXml)) (st : EffectStore) :
    parse_project_unlocks tbl [] st = ([], st) := by
  cases tbl <;> rfl

/-- C4 (amended): when the mandatory technology table is absent, the
run logs an error message but does not abort — `parse_techs` returns
like the optional-table parsers, every later stage runs on the empty
tech list, and the pipeline still produces an output model (whose tech
partitions are empty), from which the output file is then generated.
Stated with the bonus table also absent so that the run cannot fail for
the unrelated reason of a malformed bonus entry. -/
theorem c4_missing_tech_table_amended (inp : Inputs)
    (htech : inp.techTbl = none) (hbonus : inp.bonusTbl = none) :
    ∃ m, runPipeline inp = .ok m ∧ m.techs = [] ∧ m.bonusTechs = [] := by
  unfold runPipeline
  rw [htech, hbonus]
  simp only [parse_techs, parse_bonuses, parse_unit_unlocks_nil,
    parse_improvement_unlocks_nil, parse_law_unlocks_nil, parse_project_unlocks_nil,
    identify_bonus_techs, identifyAux]
  exact ⟨_, rfl, rfl, rfl⟩

/-- The input directory with `tech.xml` and `bonus.xml` absent but a
nation table present. -/
def inputsNoTech : Inputs :=
  { textInfos := none, textNation := none, textBonus := none, effectPlayer := none
  , techTbl := none
  , nationTbl := some [{ zType := some "NATION_ASSYRIA"
                       , startingTech := [some "TECH_IRONWORKING"], nameTag := none }]
  , bonusTbl := none, unitTbl := none, improvementPresent := false
  , lawPresent := false, projectTbl := none }

/-- C4 counterexample: the concrete run with the technology table
absent completes and produces an output model (with empty tech
partitions but with the nation data intact), refuting that the run
aborts producing no output model. -/
theorem c4_run_completes_cex :
    runPipeline inputsNoTech =
      .ok { techs := [], bonusTechs := []
          , startingTechs := [("NATION_ASSYRIA", ["TECH_IRONWORKING"])]
          , nationNames := [("NATION_ASSYRIA", "Assyria")]
          , nationSpecificBonuses := [] } :=
  rfl

/-- Witness for C4 applying the amended theorem at the concrete input
directory: the run yields a model rather than aborting. -/
theorem c4_missing_tech_table_amended_witness :
    (runPipeline inputsNoTech).toOption.isSome = true := by
  obtain ⟨m, hm, -, -⟩ := c4_missing_tech_table_amended inputsNoTech rfl rfl
  rw [hm]
  rfl

/-! ## C5: reverse index for unit unlocks -/

/-- Appending under a key is visible to a lookup of that key. -/
theorem lookupA_assocAppend_self (m : List (String × List String)) (k : String) (v : String) :
    lookupA (assocAppend m k v) k = some ((lookupA m k).getD [] ++ [v]) := by
  induction m with
  | nil => simp [assocAppend, lookupA]
  | cons p rest ih =>
    obtain ⟨k', vs⟩ := p
    by_cases hk : k' = k
    · subst hk
      simp [assocAppend, lookupA]
    · simp [assocAppend, lookupA, hk, ih]

/-- Appending under a key leaves other lookups unchanged. -/
theorem lookupA_assocAppend_other (m : List (String × List String)) (k k' : String)
    (v : String) (h : k' ≠ k) :
    lookupA (assocAppend m k v) k' = lookupA m k' := by
  have hne : k ≠ k' := Ne.symm h
  induction m with
  | nil => simp [assocAppend, lookupA, hne]
  | cons p rest ih =>
    obtain ⟨k2, vs⟩ := p
    by_cases hk : k2 = k
    · subst hk
      simp [assocAppend, lookupA, hne]
    · simp [assocAppend, lookupA, hk, ih]

/-- The display names that the reverse index of `parse_unit_unlocks`
(or `parse_project_unlocks`) collects under one prerequisite tech id:
one formatted name per truthy record declaring that prerequisite, in
source declaration order. -/
def unitNamesFor (pfx tid : String) (tbl : List UnitXml) : List String :=
  tbl.filterMap (fun p =>
    match p with
    | (some u, some t2) =>
      if u ≠ "" ∧ t2 ≠ "" then
        (if t2 = tid then some (format_name u pfx) else none)
      else none
    | _ => none)

/-- The reverse-index entry under a tech id is the already-accumulated
list followed by the declaration-order names of the remaining table. -/
theorem buildTechMap_go_spec (pfx tid : String) :
    ∀ (tbl : List UnitXml) (acc : List (String × List String)),
      (lookupA (buildTechMap.go pfx acc tbl) tid).getD []
        = (lookupA acc tid).getD [] ++ unitNamesFor pfx tid tbl := by
  intro tbl
  induction tbl with
  | nil => intro acc; simp [buildTechMap.go, unitNamesFor]
  | cons p rest ih =>
    intro acc
    obtain ⟨ut, tp⟩ := p
    cases ut with
    | none => simpa [buildTechMap.go, unitNamesFor, List.filterMap_cons] using ih acc
    | some u =>
      cases tp with
      | none => simpa [buildTechMap.go, unitNamesFor, List.filterMap_cons] using ih acc
      | some t2 =>
        by_cases hcond : u ≠ "" ∧ t2 ≠ ""
        · rw [show buildTechMap.go pfx acc ((some u, some t2) :: rest)
              = buildTechMap.go pfx (assocAppend acc t2 (format_name u pfx)) rest from by
                simp [buildTechMap.go, hcond]]
          rw [ih (assocAppend acc t2 (format_name u pfx))]
          by_cases ht2 : t2 = tid
          · subst ht2
            rw [lookupA_assocAppend_self]
            rw [show unitNamesFor pfx t2 ((some u, some t2) :: rest)
                = format_name u pfx :: unitNamesFor pfx t2 rest from by
                  simp [unitNamesFor, List.filterMap_cons, hcond]]
            simp
          · rw [lookupA_assocAppend_other acc t2 tid (format_name u pfx)
                (fun hc => ht2 hc.symm)]
            rw [show unitNamesFor pfx tid ((some u, some t2) :: rest)
                = unitNamesFor pfx tid rest from by
                  simp [unitNamesFor, List.filterMap_cons, hcond, ht2]]
        · rw [show buildTechMap.go pfx acc ((some u, some t2) :: rest)
              = buildTechMap.go pfx acc rest from by simp [buildTechMap.go, hcond]]
          rw [show unitNamesFor pfx tid ((some u, some t2) :: rest)
              = unitNamesFor pfx tid rest from by
                simp [unitNamesFor, List.filterMap_cons, hcond]]
          exact ih acc

/-- The reverse index lists, under each tech id, exactly the formatted
names of the records declaring that prerequisite, in table order. -/
theorem buildTechMap_spec (pfx tid : String) (tbl : List UnitXml) :
    (lookupA (buildTechMap pfx tbl) tid).getD [] = unitNamesFor pfx tid tbl := by
  have heq : buildTechMap pfx tbl = buildTechMap.go pfx [] tbl := rfl
  rw [heq, buildTechMap_go_spec pfx tid tbl []]
  simp [lookupA]

/-- Writing a category through the reference keeps the tech id. -/
theorem setCatRef_id (st : EffectStore) (t : Tech) (c : Cat) (l : List String) :
    (setCatRef st t c l).2.id = t.id := by
  cases hr : t.unlocksRef <;> simp [setCatRef, hr]

/-- On techs that own their unlock dictionaries, a category pass leaves
the store unchanged and acts pointwise. -/
theorem applyCategoryPass_own (c : Cat) (m : List (String × List String)) :
    ∀ (techs : List Tech) (st : EffectStore),
      (∀ t ∈ techs, ∀ k, t.unlocksRef ≠ UnlocksRef.shared k) →
      applyCategoryPass c m techs st =
        (techs.map (fun t =>
          match lookupA m t.id with
          | some l => (setCatRef st t c l).2
          | none => t), st) := by
  intro techs
  induction techs with
  | nil => intro st hown; rfl
  | cons t ts ih =>
    intro st hown
    have hownt := hown t (List.mem_cons_self t ts)
    obtain ⟨u, hu⟩ : ∃ u, t.unlocksRef = UnlocksRef.own u := by
      cases hr : t.unlocksRef with
      | own u => exact ⟨u, rfl⟩
      | shared k => exact absurd hr (hownt k)
    have howncons : ∀ x ∈ ts, ∀ k, x.unlocksRef ≠ UnlocksRef.shared k :=
      fun x hx => hown x (List.mem_cons_of_mem t hx)
    cases hl : lookupA m t.id with
    | some l =>
      simp only [applyCategoryPass, hl, setCatRef, hu, List.map_cons]
      rw [ih st howncons]
      rfl
    | none =>
      simp only [applyCategoryPass, hl, List.map_cons]
      rw [ih st howncons]

/-- C5 (amended): provided no two techs share an effect-player unlocks
object (all unlock dictionaries owned) and tech ids are unique, a unit
record with a truthy id and a truthy tech prerequisite naming an
existing tech contributes its display name to the reverse-index entry
of that prerequisite, exactly one tech of the run bears that id, and
the final unit list of every tech bearing it equals that entry — the
formatted names of the records declaring this prerequisite in source
declaration order; with a shared unlocks object the name can instead
surface under several techs (see the counterexample). -/
theorem c5_reverse_index_amended (tbl : List UnitXml) (techs : List Tech)
    (st : EffectStore)
    (hown : ∀ t ∈ techs, ∀ k, t.unlocksRef ≠ UnlocksRef.shared k)
    (hnd : (techs.map Tech.id).Nodup)
    (uid tid : String) (huid : uid ≠ "") (htid : tid ≠ "")
    (hrec : ((some uid, some tid) : UnitXml) ∈ tbl)
    (t : Tech) (ht : t ∈ techs) (hid : t.id = tid) :
    (((parse_unit_unlocks (some tbl) techs st).1.filter
        (fun u => u.id == tid)).length = 1) ∧
    format_name uid "UNIT_" ∈ unitNamesFor "UNIT_" tid tbl ∧
    (∀ u ∈ (parse_unit_unlocks (some tbl) techs st).1, u.id = tid →
      (resolveUnlocks (parse_unit_unlocks (some tbl) techs st).2 u).units
        = unitNamesFor "UNIT_" tid tbl) := by
  have hmemNames : format_name uid "UNIT_" ∈ unitNamesFor "UNIT_" tid tbl :=
    List.mem_filterMap.mpr ⟨(some uid, some tid), hrec, by simp [huid, htid]⟩
  have hchar := applyCategoryPass_own Cat.units (buildTechMap "UNIT_" tbl) techs st hown
  have hrun : parse_unit_unlocks (some tbl) techs st
      = (techs.map (fun x =>
          match lookupA (buildTechMap "UNIT_" tbl) x.id with
          | some l => (setCatRef st x Cat.units l).2
          | none => x), st) := hchar
  have hidF : ∀ x : Tech, ((match lookupA (buildTechMap "UNIT_" tbl) x.id with
      | some l => (setCatRef st x Cat.units l).2
      | none => x) : Tech).id = x.id := by
    intro x
    cases hl : lookupA (buildTechMap "UNIT_" tbl) x.id with
    | none => simp [hl]
    | some l => simp [hl, setCatRef_id]
  rw [hrun]
  have hml : (techs.map (fun x =>
      match lookupA (buildTechMap "UNIT_" tbl) x.id with
      | some l => (setCatRef st x Cat.units l).2
      | none => x)).map Tech.id = techs.map Tech.id := by
    rw [List.map_map]
    exact List.map_congr_left (fun a _ => hidF a)
  refine ⟨?_, hmemNames, ?_⟩
  · have h1 : ∀ l : List Tech, (l.filter (fun u => u.id == tid)).length
        = List.count tid (l.map Tech.id) := by
      intro l
      rw [List.count_eq_countP, List.countP_map, List.countP_eq_length_filter]
      rfl
    rw [h1, hml]
    exact List.count_eq_one_of_mem hnd (hid ▸ List.mem_map_of_mem Tech.id ht)
  · intro u hu huid2
    obtain ⟨t0, ht0, hF⟩ := List.mem_map.mp hu
    have ht0id : t0.id = tid := by
      rw [← huid2, ← hF]
      exact (hidF t0).symm
    have hspec := buildTechMap_spec "UNIT_" tid tbl
    have hne : unitNamesFor "UNIT_" tid tbl ≠ [] := List.ne_nil_of_mem hmemNames
    cases hL : lookupA (buildTechMap "UNIT_" tbl) tid with
    | none =>
      rw [hL] at hspec
      simp only [Option.getD_none] at hspec
      exact absurd hspec.symm hne
    | some L =>
      rw [hL] at hspec
      simp only [Option.getD_some] at hspec
      obtain ⟨u0, hu0⟩ : ∃ w, t0.unlocksRef = UnlocksRef.own w := by
        cases hr : t0.unlocksRef with
        | own w => exact ⟨w, rfl⟩
        | shared k => exact absurd hr (hown t0 ht0 k)
      have hueq : u = { t0 with unlocksRef := UnlocksRef.own (u0.setCat Cat.units L) } := by
        rw [← hF]
        simp [ht0id, hL, setCatRef, hu0]
      rw [hueq]
      simpa [resolveUnlocks, Unlocks.setCat] using hspec

/-- C5 counterexample: two parsed techs with distinct ids share one
effect-player unlocks dictionary; after the unit pass the one declared
unit display name appears in the resolved unit list of both techs, so
it does not appear in the unlock list of exactly one tech. -/
theorem c5_shared_two_techs_cex :
    (techShared "TECH_A").id ≠ (techShared "TECH_B").id ∧
    ((parse_unit_unlocks (some spearTable)
        [techShared "TECH_A", techShared "TECH_B"] storeE).1.filter
      (fun t => (resolveUnlocks (parse_unit_unlocks (some spearTable)
          [techShared "TECH_A", techShared "TECH_B"] storeE).2 t).units.contains
        "Spearman")).length = 2 :=
  ⟨by decide, rfl⟩

/-- A tech record with no effect-player reference, so its unlocks
dictionary is owned. -/
def recOwn (tid : String) : TechXml :=
  { zType := some tid, iCost := none, iRow := none, iColumn := none
  , abTechPrereq := [], effectPlayer := none, nameTag := none, adviceTag := none
  , bHide := none, bTrash := none, bNoFree := none, bonusDiscover := none
  , aeNationValid := [] }

/-- First parsed tech with an owned unlocks dictionary. -/
def ownTechA : Tech := techOfRec [] [] (recOwn "TECH_A") "TECH_A"

/-- Second parsed tech with an owned unlocks dictionary. -/
def ownTechB : Tech := techOfRec [] [] (recOwn "TECH_B") "TECH_B"

/-- A two-record unit table, both records gated on the same tech, so
that the declaration order of the reverse-index entry is visible. -/
def unitTable2 : List UnitXml :=
  [(some "UNIT_SPEARMAN", some "TECH_A"), (some "UNIT_AXEMAN", some "TECH_A")]

/-- The first tech as the unit pass leaves it. -/
def ownTechAUnits : Tech :=
  { ownTechA with unlocksRef := UnlocksRef.own (emptyUnlocks.setCat Cat.units
      ["Spearman", "Axeman"]) }

/-- Witness for C5 at a concrete run without sharing: exactly one tech
of the run bears the prerequisite id, and its final unit list is the
reverse-index entry in table declaration order. -/
theorem c5_reverse_index_amended_witness :
    ((parse_unit_unlocks (some unitTable2) [ownTechA, ownTechB] []).1.filter
        (fun u => u.id == "TECH_A")).length = 1 ∧
    unitNamesFor "UNIT_" "TECH_A" unitTable2 = ["Spearman", "Axeman"] ∧
    (resolveUnlocks (parse_unit_unlocks (some unitTable2) [ownTechA, ownTechB] []).2
        ownTechAUnits).units = unitNamesFor "UNIT_" "TECH_A" unitTable2 := by
  have h := c5_reverse_index_amended unitTable2 [ownTechA, ownTechB] []
    (by
      intro x hx k
      rcases List.mem_cons.mp hx with rfl | hx2
      · simp [ownTechA, techOfRec, recOwn]
      · rcases List.mem_cons.mp hx2 with rfl | hx3
        · simp [ownTechB, techOfRec, recOwn]
        · cases hx3)
    (by decide) "UNIT_AXEMAN" "TECH_A" (by decide) (by decide)
    (by decide) ownTechA (List.mem_cons_self _ _) rfl
  exact ⟨h.1, rfl, h.2.2 ownTechAUnits (List.mem_cons_self _ _) rfl⟩

/-! ## C9: fallback for unclassifiable bonus candidates -/

/-- A Bool known to be false is not true. -/
theorem eq_false_ne_true {b : Bool} (h : b = false) : ¬(b = true) := by
  rw [h]
  exact fun hc => Bool.noConfusion hc

/-- The disjunction of the branch conditions of the classification
chains, guards included (both chains test the same condition set, in
different orders): true exactly when some rule of the elif chains
matches the tech. -/
def matchesAnyRule (t : Tech) : Bool :=
  (strContains (tech_id_upper t) "STONE" && strContains (tech_id_upper t) "STONECUTTING") ||
  (strContains (tech_id_upper t) "WORKER") ||
  (strContains (tech_id_upper t) "FOOD") ||
  (strContains (tech_id_upper t) "SETTLER") ||
  (strContains (tech_id_upper t) "BORDERS") ||
  (strContains (tech_id_upper t) "ORDERS") ||
  (strContains (tech_id_upper t) "MONEY") ||
  (strContains (tech_id_upper t) "MINISTER") ||
  (strContains (tech_id_upper t) "SCIENTIST") ||
  (strContains (tech_id_upper t) "CIVICS") ||
  (strContains (tech_id_upper t) "TRAINING") ||
  (strContains (tech_id_upper t) "HAPPINESS") ||
  (strContains (tech_id_upper t) "GOODS") ||
  (strContains (tech_id_upper t) "MERCHANT") ||
  (strContains (tech_id_upper t) "SOLDIER") ||
  (strContains t.id "RESOURCE_") ||
  (strContains (tech_id_upper t) "BIREME") ||
  (strContains (tech_id_upper t) "CHARIOT" && !(["LIGHT", "HITTITE"].any (fun n => strContains (tech_id_upper t) n))) ||
  (strContains (tech_id_upper t) "MACEMAN") ||
  (strContains (tech_id_upper t) "ONAGER") ||
  (strContains (tech_id_upper t) "ARCHER" && !(["CAMEL", "HORSE", "AKKADIAN", "CIMMERIAN", "MEDJAY", "BEJA", "CATAPHRACT"].any (fun s => strContains (tech_id_upper t) s))) ||
  (strContains (tech_id_upper t) "HORSEMAN" && !(strContains (tech_id_upper t) "HORSE_ARCHER")) ||
  (strContains (tech_id_upper t) "HORSE_ARCHER") ||
  (strContains (tech_id_upper t) "CAMEL_ARCHER") ||
  (strContains (tech_id_upper t) "WAR_ELEPHANT") ||
  (strContains (tech_id_upper t) "BALLISTA") ||
  (strContains (tech_id_upper t) "LONGBOWMAN") ||
  (strContains (tech_id_upper t) "CROSSBOWMAN") ||
  (strContains (tech_id_upper t) "BATTERING_RAM") ||
  (strContains (tech_id_upper t) "SIEGE_TOWER") ||
  (strContains (tech_id_upper t) "AKKADIAN") ||
  (strContains (tech_id_upper t) "CIMMERIAN") ||
  (strContains (tech_id_upper t) "AFRICAN_ELEPHANT") ||
  (strContains (tech_id_upper t) "TURRETED_ELEPHANT") ||
  (strContains (tech_id_upper t) "LIGHT_CHARIOT") ||
  (strContains (tech_id_upper t) "MOUNTED_LANCER") ||
  (strContains (tech_id_upper t) "HOPLITE") ||
  (strContains (tech_id_upper t) "PHALANGITE") ||
  (strContains (tech_id_upper t) "HITTITE_CHARIOT") ||
  (strContains (tech_id_upper t) "MEDJAY") ||
  (strContains (tech_id_upper t) "BEJA") ||
  (strContains (tech_id_upper t) "PALTON") ||
  (strContains (tech_id_upper t) "CATAPHRACT") ||
  (strContains (tech_id_upper t) "HASTATUS") ||
  (strContains (tech_id_upper t) "LEGIONARY") ||
  (strContains (tech_id_upper t) "DMT") ||
  (strContains (tech_id_upper t) "SHOTELAI")

/-- The tech id is matched by no classification rule: the exact
fall-through condition of both elif chains. -/
def noRuleMatches (t : Tech) : Bool := !(matchesAnyRule t)

/-- C9 (amended): a bonus candidate matched by no rule of the
classification chains — including ids where a pattern occurs only
guard-blocked, such as an archer variant carrying a guard word — gets
its already-resolved display name as both its effect text and its
label, whatever the bonus-value table holds; label and effect are
therefore non-empty exactly when the resolved display name is
non-empty, which the parser does not guarantee (see the counterexample
with an empty resolved name). -/
theorem c9_fallback_amended (bv : Option BonusValues) (t : Tech) (b : BonusTech)
    (hms : noRuleMatches t = true) (h : mkBonusTech bv t = .ok b) :
    b.bonus = t.name ∧ b.name = t.name := by
  simp only [noRuleMatches, matchesAnyRule, Bool.not_eq_true',
    Bool.or_eq_false_iff] at hms
  obtain ⟨⟨⟨⟨⟨⟨⟨⟨⟨⟨⟨⟨⟨⟨⟨⟨⟨⟨⟨⟨⟨⟨⟨⟨⟨⟨⟨⟨⟨⟨⟨⟨⟨⟨⟨⟨⟨⟨⟨⟨⟨⟨⟨⟨⟨⟨h1, h2⟩, h3⟩, h4⟩, h5⟩, h6⟩, h7⟩, h8⟩, h9⟩, h10⟩, h11⟩, h12⟩, h13⟩, h14⟩, h15⟩, h16⟩, h17⟩, h18⟩, h19⟩, h20⟩, h21⟩, h22⟩, h23⟩, h24⟩, h25⟩, h26⟩, h27⟩, h28⟩, h29⟩, h30⟩, h31⟩, h32⟩, h33⟩, h34⟩, h35⟩, h36⟩, h37⟩, h38⟩, h39⟩, h40⟩, h41⟩, h42⟩, h43⟩, h44⟩, h45⟩, h46⟩, h47⟩ := hms
  have hraw : bonusTextRaw bv t = .ok "" := by
    unfold bonusTextRaw
    rw [if_neg (eq_false_ne_true h1),
      if_neg (eq_false_ne_true h2),
      if_neg (eq_false_ne_true h3),
      if_neg (eq_false_ne_true h4),
      if_neg (eq_false_ne_true h5),
      if_neg (eq_false_ne_true h6),
      if_neg (eq_false_ne_true h7),
      if_neg (eq_false_ne_true h8),
      if_neg (eq_false_ne_true h9),
      if_neg (eq_false_ne_true h10),
      if_neg (eq_false_ne_true h11),
      if_neg (eq_false_ne_true h12),
      if_neg (eq_false_ne_true h13),
      if_neg (eq_false_ne_true h14),
      if_neg (eq_false_ne_true h15),
      if_neg (eq_false_ne_true h16),
      if_neg (eq_false_ne_true h17),
      if_neg (eq_false_ne_true h18),
      if_neg (eq_false_ne_true h19),
      if_neg (eq_false_ne_true h20),
      if_neg (eq_false_ne_true h21),
      if_neg (eq_false_ne_true h22),
      if_neg (eq_false_ne_true h23),
      if_neg (eq_false_ne_true h24),
      if_neg (eq_false_ne_true h25),
      if_neg (eq_false_ne_true h26),
      if_neg (eq_false_ne_true h27),
      if_neg (eq_false_ne_true h28),
      if_neg (eq_false_ne_true h29),
      if_neg (eq_false_ne_true h30),
      if_neg (eq_false_ne_true h31),
      if_neg (eq_false_ne_true h32),
      if_neg (eq_false_ne_true h33),
      if_neg (eq_false_ne_true h34),
      if_neg (eq_false_ne_true h35),
      if_neg (eq_false_ne_true h36),
      if_neg (eq_false_ne_true h37),
      if_neg (eq_false_ne_true h38),
      if_neg (eq_false_ne_true h39),
      if_neg (eq_false_ne_true h40),
      if_neg (eq_false_ne_true h41),
      if_neg (eq_false_ne_true h42),
      if_neg (eq_false_ne_true h43),
      if_neg (eq_false_ne_true h44),
      if_neg (eq_false_ne_true h45),
      if_neg (eq_false_ne_true h46),
      if_neg (eq_false_ne_true h47)]
  have hname : bonusNameChain t t.name = t.name := by
    unfold bonusNameChain
    rw [if_neg (eq_false_ne_true h1),
      if_neg (eq_false_ne_true h2),
      if_neg (eq_false_ne_true h3),
      if_neg (eq_false_ne_true h4),
      if_neg (eq_false_ne_true h5),
      if_neg (eq_false_ne_true h6),
      if_neg (eq_false_ne_true h7),
      if_neg (eq_false_ne_true h8),
      if_neg (eq_false_ne_true h9),
      if_neg (eq_false_ne_true h10),
      if_neg (eq_false_ne_true h11),
      if_neg (eq_false_ne_true h12),
      if_neg (eq_false_ne_true h13),
      if_neg (eq_false_ne_true h14),
      if_neg (eq_false_ne_true h15),
      if_neg (eq_false_ne_true h17),
      if_neg (eq_false_ne_true h18),
      if_neg (eq_false_ne_true h19),
      if_neg (eq_false_ne_true h20),
      if_neg (eq_false_ne_true h21),
      if_neg (eq_false_ne_true h24),
      if_neg (eq_false_ne_true h25),
      if_neg (eq_false_ne_true h22),
      if_neg (eq_false_ne_true h23),
      if_neg (eq_false_ne_true h26),
      if_neg (eq_false_ne_true h27),
      if_neg (eq_false_ne_true h28),
      if_neg (eq_false_ne_true h29),
      if_neg (eq_false_ne_true h30),
      if_neg (eq_false_ne_true h31),
      if_neg (eq_false_ne_true h32),
      if_neg (eq_false_ne_true h33),
      if_neg (eq_false_ne_true h34),
      if_neg (eq_false_ne_true h35),
      if_neg (eq_false_ne_true h36),
      if_neg (eq_false_ne_true h37),
      if_neg (eq_false_ne_true h38),
      if_neg (eq_false_ne_true h39),
      if_neg (eq_false_ne_true h40),
      if_neg (eq_false_ne_true h41),
      if_neg (eq_false_ne_true h42),
      if_neg (eq_false_ne_true h43),
      if_neg (eq_false_ne_true h44),
      if_neg (eq_false_ne_true h45),
      if_neg (eq_false_ne_true h46),
      if_neg (eq_false_ne_true h47),
      if_neg (eq_false_ne_true h16)]
  simp only [mkBonusTech, hraw, if_pos, Except.ok.injEq] at h
  subst h
  exact ⟨rfl, by simpa using hname⟩

/-- A bonus-flagged record whose id strips to an empty display name. -/
def recTechBare : TechXml :=
  { zType := some "TECH_", iCost := none, iRow := none, iColumn := none
  , abTechPrereq := [], effectPlayer := none, nameTag := none, adviceTag := none
  , bHide := some "1", bTrash := none, bNoFree := none, bonusDiscover := none
  , aeNationValid := [] }

/-- The parsed singleton tech list for the C9 counterexample. -/
def bareTechs : List Tech := parse_techs [] [] (some [recTechBare])

/-- C9 counterexample: a processable bonus-candidate record whose id is
the bare category marker resolves to the empty display name, and the
fallback then emits an empty label and an empty effect string in the
final bonus list, refuting that every bonus candidate produces a
non-empty label and effect. -/
theorem c9_empty_fallback_cex :
    (techOfRec [] [] recTechBare "TECH_").name = "" ∧
    identify_bonus_techs (some []) bareTechs =
      .ok ([], [{ id := "TECH_", name := "", cost := 0, parent := none
                , bonus := "", nation := none }]) :=
  ⟨rfl, rfl⟩

/-- A bonus-flagged record whose id contains the archer pattern only in
guard-blocked form: the archer rule is excluded by its guard word, no
other rule matches, and the fallback fires. -/
def recHorseAnd : TechXml :=
  { zType := some "TECH_HORSE_AND_ARCHER", iCost := none, iRow := none, iColumn := none
  , abTechPrereq := [], effectPlayer := none, nameTag := none, adviceTag := none
  , bHide := some "1", bTrash := none, bNoFree := none, bonusDiscover := none
  , aeNationValid := [] }

/-- The parsed tech for the C9 witness. -/
def horseAndTech : Tech := techOfRec [] [] recHorseAnd "TECH_HORSE_AND_ARCHER"

/-- The bonus entry assembled for the C9 witness. -/
def horseAndBonus : BonusTech :=
  { id := "TECH_HORSE_AND_ARCHER", name := "Horse And Archer", cost := 0, parent := none
  , bonus := "Horse And Archer", nation := none }

/-- Witness for C9 at a concrete guard-blocked candidate: the archer
pattern occurs in the id but its rule is guard-blocked, no rule
matches, and both the label and the effect text equal the resolved
display name. -/
theorem c9_fallback_amended_witness :
    strContains (tech_id_upper horseAndTech) "ARCHER" = true ∧
    mkBonusTech (some []) horseAndTech = .ok horseAndBonus ∧
    horseAndBonus.bonus = horseAndTech.name ∧ horseAndBonus.name = horseAndTech.name := by
  have h := c9_fallback_amended (some []) horseAndTech horseAndBonus (by decide) rfl
  exact ⟨rfl, rfl, h.1, h.2⟩
